import Mathlib

/-!
Verification of the JSONL session parser and stats pipeline of `ai-usage-log`
(`src/ai_usage_log/services/claude_session_service.py` and
`src/ai_usage_log/services/jsonl_stats_service.py`), as a shallow embedding.

Conventions of the embedding:
* JSON integers are modelled as `Int` (token deltas may be negative when the
  source misbehaves, exactly as in the Python code).
* Python `dict`s are association lists with insertion-order semantics
  (`dictInsert` replaces in place, otherwise appends — Python 3.7+ dicts).
* Python `set`s of strings are lists with membership-checked insertion,
  sorted on output.
* Timestamps are instants in microseconds since some epoch (`Nat`).  The
  string round-trip of `_to_local` is modelled at the instant level: a zero
  timezone offset passes the instant through unchanged, a nonzero whole-hour
  offset preserves the instant except that formatting with `%H:%M:%S.` plus
  `microsecond // 1000` truncates it to whole milliseconds.
* Python floats that the claims compare or add are modelled as `ℚ`.
-/

namespace AIUsageLog

/-- A token-usage snapshot as read from `message.usage`
(`input_tokens`, `output_tokens`, `cache_read_input_tokens`,
`cache_creation_input_tokens`, all defaulting to 0). -/
structure Usage where
  input_tokens : Int := 0
  output_tokens : Int := 0
  cache_read_input_tokens : Int := 0
  cache_creation_input_tokens : Int := 0
deriving Repr, DecidableEq

/-- Python-dict insertion: replace the value in place if the key is present,
otherwise append at the end (Python 3.7+ insertion-order semantics). -/
def dictInsert {α : Type} (m : List (String × α)) (k : String) (v : α) :
    List (String × α) :=
  if m.any (fun p => p.1 == k) then
    m.map (fun p => if p.1 == k then (k, v) else p)
  else
    m ++ [(k, v)]

/-- `dict.get(k, d)` on an association list. -/
def lookupD {α : Type} (m : List (String × α)) (k : String) (d : α) : α :=
  match m.lookup k with
  | some v => v
  | none => d

/-- Remove a key from an association list (`dict.pop`). -/
def dictRemove {α : Type} (m : List (String × α)) (k : String) :
    List (String × α) :=
  m.filter (fun p => p.1 != k)

/-- Python-set insertion on a list model of a set of strings. -/
def setInsert (l : List String) (x : String) : List String :=
  if x ∈ l then l else l ++ [x]

/-- Insertion sort of strings, modelling Python `sorted` on a set of strings. -/
def insertSorted (x : String) : List String → List String
  | [] => [x]
  | y :: ys => if x ≤ y then x :: y :: ys else y :: insertSorted x ys

/-- `sorted(...)` for a list of strings. -/
def sortStrings (l : List String) : List String :=
  l.foldr insertSorted []

/-- Python whitespace for `str.strip()`. -/
def isPySpace (c : Char) : Bool :=
  c = ' ' ∨ c = '\t' ∨ c = '\n' ∨ c = '\r' ∨ c = '\x0b' ∨ c = '\x0c'

/-- Python `str.strip()` (structural, so that it evaluates by kernel
reduction). -/
def pyStrip (s : String) : String :=
  String.mk (((s.toList.dropWhile isPySpace).reverse.dropWhile
    isPySpace).reverse)

/-- Python slicing `s[:n]` (structural). -/
def pyTake (s : String) (n : Nat) : String :=
  String.mk (s.toList.take n)

/-- Python `" ".join(parts)` (structural). -/
def joinWithSpace : List String → String
  | [] => ""
  | [x] => x
  | x :: xs => x ++ " " ++ joinWithSpace xs

/-- Whether `p` is a prefix of `l` (structural). -/
def startsWithChars : List Char → List Char → Bool
  | [], _ => true
  | _ :: _, [] => false
  | p :: ps, x :: xs => p = x && startsWithChars ps xs

/-- Whether `pat` occurs somewhere in `l` (structural). -/
def occursChars (pat : List Char) : List Char → Bool
  | [] => startsWithChars pat []
  | x :: xs => startsWithChars pat (x :: xs) || occursChars pat xs

/-- Python `s.split(c)` for a one-character separator (structural; never
returns an empty list). -/
def splitOnChar (c : Char) : List Char → List (List Char)
  | [] => [[]]
  | x :: xs =>
    match splitOnChar c xs with
    | [] => [[]]
    | g :: gs => if x = c then [] :: g :: gs else (x :: g) :: gs

/-- Python truthiness of an optional string (`None` and `""` are falsy). -/
def truthy : Option String → Bool
  | none => false
  | some s => s ≠ ""

/-- `a or b` on optional strings under Python truthiness. -/
def orTruthy (a b : Option String) : Option String :=
  if truthy a then a else b

/-- The `input` object of a `tool_use` content block, restricted to the three
fields the parser consults (`file_path`, `path`, `command`).  A non-dict or
absent `input` behaves exactly like the empty dict, so it is modelled by
all-`none` fields. -/
structure ToolInput where
  file_path : Option String := none
  path : Option String := none
  command : Option String := none
deriving Repr, DecidableEq

/-- One content block of a message (`text`, `tool_use`, `tool_result`, or an
unrecognized dict type). -/
inductive ContentBlock where
  | text (t : String)
  | tool_use (name : String) (id : String) (input : ToolInput)
  | tool_result (tool_use_id : String) (is_error : Bool)
  | otherBlock
deriving Repr, DecidableEq

/-- `message.content` of a user entry: a plain string, a list of blocks, or
anything else (which the parser ignores). -/
inductive UserContent where
  | str (s : String)
  | blocks (bs : List ContentBlock)
  | otherContent
deriving Repr, DecidableEq

/-- The `message` object of an assistant entry.  `id = ""` models an absent
id; `content = none` models a non-list `content`; `usage = none` models an
absent or empty (falsy) `usage` dict. -/
structure AssistantMessage where
  model : Option String := none
  usage : Option Usage := none
  id : String := ""
  content : Option (List ContentBlock) := none
deriving Repr, DecidableEq

/-- The payload of a `progress` entry.  `agentAssistant` models
`data.type == "agent_progress"` with a nested assistant message carrying
`data.message.message.usage` (with `usage = none` for an absent/falsy usage
dict); every other shape (non-dict `data`, other `data.type`, non-assistant
inner message, non-dict inner `message`) is `otherProgress`, on which the
parser returns without effect. -/
inductive ProgressPayload where
  | agentAssistant (msg_id : String) (usage : Option Usage)
  | otherProgress
deriving Repr, DecidableEq

/-- The kind-specific part of a decoded JSONL entry.  `skipKind` covers the
three noise types in `_SKIP_TYPES` (processed before anything else);
`otherKind` covers unknown `type` tags (timestamp and git branch are still
recorded for those).  For a user entry, `message = none` models a non-dict
`message` object. -/
inductive Payload where
  | user (isMeta : Bool) (content : Option UserContent)
  | assistant (message : Option AssistantMessage)
  | progress (toolUseID : String) (data : ProgressPayload)
  | skipKind
  | otherKind
deriving Repr, DecidableEq

/-- One decoded JSONL entry: optional timestamp (an instant in microseconds;
`none` models an absent or empty timestamp), optional `gitBranch`, and the
kind-specific payload. -/
structure Entry where
  timestamp : Option Nat := none
  gitBranch : Option String := none
  payload : Payload
deriving Repr, DecidableEq

/-- `TurnTokens` (pydantic model): token usage of a single conversation
turn. -/
structure TurnTokens where
  input_tokens : Int := 0
  output_tokens : Int := 0
  cache_read_tokens : Int := 0
  cache_creation_tokens : Int := 0
deriving Repr, DecidableEq

/-- `TurnCommand` (pydantic model): a command executed during a turn. -/
structure TurnCommand where
  command : String
  status : String := "success"
deriving Repr, DecidableEq

/-- `ConversationTurn` (pydantic model).  The timestamp is the localized
instant (`none` when the triggering entry had no timestamp). -/
structure ConversationTurn where
  timestamp : Option Nat
  user_prompt : String
  tools_used : List String
  response_summary : String
  tokens : TurnTokens
  context_window : Int := 0
  subagent_tokens : Option TurnTokens := none
  commands : List TurnCommand := []
  files_modified : List String := []
deriving Repr, DecidableEq

/-- `_TurnAccumulator`: mutable per-turn accumulation state. -/
structure TurnAccumulator where
  timestamp : Option Nat := none
  user_prompt : String := ""
  tools_used : List String := []
  response_texts : List String := []
  input_tokens : Int := 0
  output_tokens : Int := 0
  cache_read_tokens : Int := 0
  cache_creation_tokens : Int := 0
  context_window : Int := 0
  subagent_input_tokens : Int := 0
  subagent_output_tokens : Int := 0
  subagent_cache_creation_tokens : Int := 0
  pending_commands : List (String × String) := []
  resolved_commands : List (String × String) := []
  files_modified : List String := []
deriving Repr, DecidableEq

/-- `_ParseState`: single-pass accumulation state for JSONL parsing. -/
structure ParseState where
  model : Option String := none
  git_branch : Option String := none
  start_time : Option Nat := none
  end_time : Option Nat := none
  input_tokens : Int := 0
  output_tokens : Int := 0
  cache_read_tokens : Int := 0
  cache_creation_tokens : Int := 0
  total_user_messages : Nat := 0
  total_assistant_messages : Nat := 0
  total_tool_calls : Nat := 0
  tools_summary : List (String × Nat) := []
  files_read : List String := []
  files_written : List String := []
  commands_run : List String := []
  turns : List ConversationTurn := []
  current_turn : Option TurnAccumulator := none
  orphan_input_tokens : Int := 0
  orphan_output_tokens : Int := 0
  orphan_cache_read_tokens : Int := 0
  orphan_cache_creation_tokens : Int := 0
  orphan_drained : Bool := false
  seen_msg_ids : List (String × Usage) := []
  subagent_input_tokens : Int := 0
  subagent_output_tokens : Int := 0
  subagent_cache_creation_tokens : Int := 0
  seen_subagent_msg_ids : List (String × Usage) := []
  task_tool_use_ids : List (String × Nat) := []
deriving Repr, DecidableEq

/-- The initial `_ParseState()`. -/
def initState : ParseState := {}

/-- Whether `pat` occurs as a substring of `s`. -/
def containsSub (s pat : String) : Bool :=
  occursChars pat.toList s.toList

/-- `_SYSTEM_TAG_PATTERN.search(content)`: the regex
`<(system-reminder|local-command-caveat|local-command-stdout|command-name)`
matches iff one of the four `<`-prefixed literals occurs as a substring. -/
def hasSystemTag (s : String) : Bool :=
  containsSub s "<system-reminder" || containsSub s "<local-command-caveat" ||
  containsSub s "<local-command-stdout" || containsSub s "<command-name"

/-- `_INTERRUPTED_TEXT`. -/
def INTERRUPTED_TEXT : String := "[Request interrupted by user for tool use]"

/-- `_MAX_COMMAND_LEN`. -/
def MAX_COMMAND_LEN : Nat := 200

/-- `_MAX_PROMPT_LEN`. -/
def MAX_PROMPT_LEN : Nat := 500

/-- `_MAX_RESPONSE_LEN`. -/
def MAX_RESPONSE_LEN : Nat := 200

/-- `_to_local` at the instant level.  With no configured offset
(`tz_offset_hours = 0`, i.e. `self._tz is None`) the timestamp string passes
through unchanged, preserving its microsecond precision.  With a nonzero
whole-hour offset the instant is preserved by `astimezone` but the formatting
`"%H:%M:%S." + f"{local.microsecond // 1000:03d}"` truncates it to whole
milliseconds. -/
def toLocalInstant (tz_offset_hours : Int) (t : Nat) : Nat :=
  if tz_offset_hours = 0 then t else t / 1000 * 1000

/-- `_is_tool_result` test on a content block (`block.get("type") ==
"tool_result"`). -/
def isToolResultBlock : ContentBlock → Bool
  | .tool_result _ _ => true
  | _ => false

/-- `_flush_turn`: flush the accumulated turn into `state.turns`; on the
first flush drain the orphan token counters into this turn. -/
def flush_turn (st : ParseState) : ParseState :=
  match st.current_turn with
  | none => st
  | some t0 =>
    let t :=
      if st.orphan_drained then t0
      else
        { t0 with
          input_tokens := t0.input_tokens + st.orphan_input_tokens,
          output_tokens := t0.output_tokens + st.orphan_output_tokens,
          cache_read_tokens := t0.cache_read_tokens + st.orphan_cache_read_tokens,
          cache_creation_tokens :=
            t0.cache_creation_tokens + st.orphan_cache_creation_tokens }
    let response_summary :=
      if t.response_texts = [] then ""
      else pyTake (joinWithSpace t.response_texts) MAX_RESPONSE_LEN
    let turn_tokens : TurnTokens :=
      { input_tokens := t.input_tokens, output_tokens := t.output_tokens,
        cache_read_tokens := t.cache_read_tokens,
        cache_creation_tokens := t.cache_creation_tokens }
    let subagent_tokens : Option TurnTokens :=
      if t.subagent_input_tokens ≠ 0 ∨ t.subagent_output_tokens ≠ 0 ∨
          t.subagent_cache_creation_tokens ≠ 0 then
        some { input_tokens := t.subagent_input_tokens,
               output_tokens := t.subagent_output_tokens,
               cache_creation_tokens := t.subagent_cache_creation_tokens }
      else none
    let commands :=
      t.resolved_commands.map (fun p => TurnCommand.mk p.1 p.2) ++
      t.pending_commands.map (fun p => TurnCommand.mk p.2 "success")
    { st with
      turns := st.turns ++
        [{ timestamp := t.timestamp, user_prompt := t.user_prompt,
           tools_used := t.tools_used, response_summary := response_summary,
           tokens := turn_tokens, context_window := t.context_window,
           subagent_tokens := subagent_tokens, commands := commands,
           files_modified := t.files_modified }],
      current_turn := none,
      orphan_drained := true }

/-- The loop body resolving a pending command from one `tool_result` block of
a tool-result-only user message. -/
def resolveToolResult (st : ParseState) (b : ContentBlock) : ParseState :=
  match b with
  | .tool_result tid isErr =>
    match st.current_turn with
    | none => st
    | some ct =>
      match ct.pending_commands.lookup tid with
      | none => st
      | some cmd =>
        let status := if isErr then "error" else "success"
        { st with current_turn := some { ct with
              pending_commands := dictRemove ct.pending_commands tid,
              resolved_commands := ct.resolved_commands ++ [(cmd, status)] } }
  | _ => st

/-- `_process_user_entry`.  `content? = none` models a non-dict `message`
object; an absent `content` is the empty string. -/
def process_user_entry (loc : Nat → Nat) (ts : Option Nat) (isMeta : Bool)
    (content? : Option UserContent) (st : ParseState) : ParseState :=
  if isMeta then st else
  match content? with
  | none => st
  | some (.str s) =>
    if pyStrip s ≠ "" then
      if hasSystemTag s then st
      else if pyStrip s = INTERRUPTED_TEXT then st
      else
        let st := { st with total_user_messages := st.total_user_messages + 1 }
        let st := flush_turn st
        { st with current_turn := some { timestamp := ts.map loc, user_prompt := pyTake s MAX_PROMPT_LEN } }
    else st
  | some (.blocks bs) =>
    if bs ≠ [] ∧ bs.all isToolResultBlock then
      match st.current_turn with
      | none => st
      | some _ => bs.foldl resolveToolResult st
    else
      let texts := bs.filterMap fun b =>
        match b with
        | .text t => some t
        | _ => none
      let combined := pyStrip (joinWithSpace texts)
      if combined ≠ "" ∧ ¬ hasSystemTag combined ∧
          combined ≠ INTERRUPTED_TEXT then
        let st := { st with total_user_messages := st.total_user_messages + 1 }
        let st := flush_turn st
        let acc : TurnAccumulator :=
          { timestamp := ts.map loc,
            user_prompt := pyTake combined MAX_PROMPT_LEN }
        { st with current_turn := some acc }
      else st
  | some .otherContent => st

/-- `_extract_file_activity`: session-level file/command extraction from a
`tool_use` block's input. -/
def extract_file_activity (tool_name : String) (tool_input : ToolInput)
    (st : ParseState) : ParseState :=
  if tool_name = "Read" ∨ tool_name = "Glob" ∨ tool_name = "Grep" then
    match orTruthy tool_input.file_path tool_input.path with
    | some p =>
      if p ≠ "" then { st with files_read := setInsert st.files_read p } else st
    | none => st
  else if tool_name = "Write" ∨ tool_name = "Edit" then
    match tool_input.file_path with
    | some p =>
      if p ≠ "" then { st with files_written := setInsert st.files_written p }
      else st
    | none => st
  else if tool_name = "Bash" then
    match tool_input.command with
    | some c =>
      if c ≠ "" then { st with commands_run := st.commands_run ++ [c] } else st
    | none => st
  else st

/-- The `state.total_tool_calls += 1` / `state.tools_summary[tool_name] += 1`
pair of `_process_assistant_entry`. -/
def tallyToolUse (name : String) (st : ParseState) : ParseState :=
  { st with
    total_tool_calls := st.total_tool_calls + 1,
    tools_summary :=
      dictInsert st.tools_summary name (lookupD st.tools_summary name 0 + 1) }

/-- `state.current_turn.tools_used.append(tool_name)` when a turn exists. -/
def appendToolUsed (name : String) (st : ParseState) : ParseState :=
  match st.current_turn with
  | some ct =>
    { st with current_turn := some { ct with tools_used := ct.tools_used ++ [name] } }
  | none => st

/-- Per-turn command/file tracking of a `tool_use` block (`Bash` pending
commands, `Write`/`Edit` modified files). -/
def turnTrackToolUse (name id : String) (input : ToolInput)
    (st : ParseState) : ParseState :=
  match st.current_turn with
  | some ct =>
    if name = "Bash" then
      match input.command with
      | some c =>
        if c ≠ "" ∧ id ≠ "" then
          let ct2 :=
            { ct with pending_commands :=
                dictInsert ct.pending_commands id (pyTake c MAX_COMMAND_LEN) }
          { st with current_turn := some ct2 }
        else st
      | none => st
    else if name = "Write" ∨ name = "Edit" then
      match input.file_path with
      | some p =>
        if p ≠ "" then
          { st with current_turn := some { ct with files_modified := ct.files_modified ++ [p] } }
        else st
      | none => st
    else st
  | none => st

/-- Record a `Task` invocation id against the index the current turn will
get when flushed (`len(state.turns)`). -/
def recordTaskId (name id : String) (st : ParseState) : ParseState :=
  if name = "Task" ∧ id ≠ "" then
    { st with task_tool_use_ids :=
        dictInsert st.task_tool_use_ids id st.turns.length }
  else st

/-- Processing of one `tool_use` content block inside
`_process_assistant_entry` (tool counting, per-turn tool list, file/command
activity, per-turn tracking, and Task-invocation recording, in source
order). -/
def processToolUseBlock (name id : String) (input : ToolInput)
    (st : ParseState) : ParseState :=
  if name ≠ "" then
    recordTaskId name id
      (turnTrackToolUse name id input
        (extract_file_activity name input
          (appendToolUsed name (tallyToolUse name st))))
  else st

/-- The `for block in content` loop body of `_process_assistant_entry`:
`text` blocks append to the current turn's response fragments, `tool_use`
blocks are dispatched to `processToolUseBlock`, other blocks are ignored. -/
def processContentBlock (st : ParseState) (b : ContentBlock) : ParseState :=
  match b with
  | .text t =>
    if t ≠ "" then
      match st.current_turn with
      | some ct =>
        let ct2 := { ct with response_texts := ct.response_texts ++ [t] }
        { st with current_turn := some ct2 }
      | none => st
    else st
  | .tool_use name id input => processToolUseBlock name id input st
  | _ => st

/-- The streamed-chunk delta of `_process_assistant_entry`: the raw snapshot
if no previous snapshot was seen for the stream id (or the id is absent),
otherwise `current - previous` per field. -/
def usageDelta (msg_id : String) (u : Usage)
    (seen : List (String × Usage)) : Usage :=
  let prev := if msg_id ≠ "" then seen.lookup msg_id else none
  match prev with
  | some pu =>
    { input_tokens := u.input_tokens - pu.input_tokens,
      output_tokens := u.output_tokens - pu.output_tokens,
      cache_read_input_tokens :=
        u.cache_read_input_tokens - pu.cache_read_input_tokens,
      cache_creation_input_tokens :=
        u.cache_creation_input_tokens - pu.cache_creation_input_tokens }
  | none => u

/-- The model-extraction step of `_process_assistant_entry` (first non-empty
value wins). -/
def setModelIfAbsent (model? : Option String) (st : ParseState) : ParseState :=
  if ¬ truthy st.model then
    match model? with
    | some m => if m ≠ "" then { st with model := some m } else st
    | none => st
  else st

/-- The token-usage step of `_process_assistant_entry`: dedup against
`seen_msg_ids`, add the deltas to the session counters, and either add them
to the current turn (recording the raw call's input-side size as its context
window when positive) or to the orphan bucket. -/
def applyAssistantUsage (msg_id : String) (usage? : Option Usage)
    (st : ParseState) : ParseState :=
  match usage? with
  | none => st
  | some u =>
    let delta := usageDelta msg_id u st.seen_msg_ids
    let st :=
      if msg_id ≠ "" then
        { st with seen_msg_ids := dictInsert st.seen_msg_ids msg_id u }
      else st
    let st := { st with
      input_tokens := st.input_tokens + delta.input_tokens,
      output_tokens := st.output_tokens + delta.output_tokens,
      cache_read_tokens :=
        st.cache_read_tokens + delta.cache_read_input_tokens,
      cache_creation_tokens :=
        st.cache_creation_tokens + delta.cache_creation_input_tokens }
    let context_window := u.input_tokens + u.cache_read_input_tokens +
      u.cache_creation_input_tokens
    match st.current_turn with
    | some ct =>
      let ct := { ct with
        input_tokens := ct.input_tokens + delta.input_tokens,
        output_tokens := ct.output_tokens + delta.output_tokens,
        cache_read_tokens :=
          ct.cache_read_tokens + delta.cache_read_input_tokens,
        cache_creation_tokens :=
          ct.cache_creation_tokens + delta.cache_creation_input_tokens }
      let ct :=
        if context_window > 0 then { ct with context_window := context_window }
        else ct
      { st with current_turn := some ct }
    | none =>
      { st with
        orphan_input_tokens := st.orphan_input_tokens + delta.input_tokens,
        orphan_output_tokens :=
          st.orphan_output_tokens + delta.output_tokens,
        orphan_cache_read_tokens :=
          st.orphan_cache_read_tokens + delta.cache_read_input_tokens,
        orphan_cache_creation_tokens :=
          st.orphan_cache_creation_tokens +
            delta.cache_creation_input_tokens }

/-- `_process_assistant_entry`.  `msg? = none` models a non-dict `message`
object (the assistant-message counter is still incremented). -/
def process_assistant_entry (msg? : Option AssistantMessage)
    (st : ParseState) : ParseState :=
  let st :=
    { st with total_assistant_messages := st.total_assistant_messages + 1 }
  match msg? with
  | none => st
  | some msg =>
    let st := setModelIfAbsent msg.model st
    let st := applyAssistantUsage msg.id msg.usage st
    match msg.content with
    | none => st
    | some blocks => blocks.foldl processContentBlock st

/-- The `elif state.current_turn:` branch of `_process_progress_entry`:
add the sub-agent deltas to the in-progress turn accumulator if one exists. -/
def progressAddToCurrentTurn (dInp dOut dCc : Int) (st : ParseState) :
    ParseState :=
  match st.current_turn with
  | some ct =>
    { st with current_turn := some { ct with
          subagent_input_tokens := ct.subagent_input_tokens + dInp,
          subagent_output_tokens := ct.subagent_output_tokens + dOut,
          subagent_cache_creation_tokens :=
            ct.subagent_cache_creation_tokens + dCc } }
  | none => st

/-- The sub-agent streamed-chunk delta of `_process_progress_entry` (three
fields: input, output, cache-creation). -/
def subagentDelta (msg_id : String) (u : Usage)
    (seen : List (String × Usage)) : Int × Int × Int :=
  let prev := if msg_id ≠ "" then seen.lookup msg_id else none
  match prev with
  | some pu =>
    (u.input_tokens - pu.input_tokens, u.output_tokens - pu.output_tokens,
     u.cache_creation_input_tokens - pu.cache_creation_input_tokens)
  | none =>
    (u.input_tokens, u.output_tokens, u.cache_creation_input_tokens)

/-- The sub-agent bookkeeping of `_process_progress_entry`: record the
snapshot in the dedup table and add the deltas to the session-level
sub-agent totals. -/
def subagentAccumulate (msg_id : String) (u : Usage) (d : Int × Int × Int)
    (st : ParseState) : ParseState :=
  let st :=
    if msg_id ≠ "" then
      { st with seen_subagent_msg_ids :=
          dictInsert st.seen_subagent_msg_ids msg_id u }
    else st
  { st with
    subagent_input_tokens := st.subagent_input_tokens + d.1,
    subagent_output_tokens := st.subagent_output_tokens + d.2.1,
    subagent_cache_creation_tokens :=
      st.subagent_cache_creation_tokens + d.2.2 }

/-- The turn-attribution step of `_process_progress_entry`: mutate the
already-flushed turn in place when the recorded turn index is in range,
otherwise fall back to the in-progress accumulator. -/
def subagentAttribute (toolUseID : String) (d : Int × Int × Int)
    (st : ParseState) : ParseState :=
  match st.task_tool_use_ids.lookup toolUseID with
  | some turn_idx =>
    if h : turn_idx < st.turns.length then
      let turn := st.turns.get ⟨turn_idx, h⟩
      let tt := turn.subagent_tokens.getD {}
      let turn := { turn with subagent_tokens := some { tt with
            input_tokens := tt.input_tokens + d.1,
            output_tokens := tt.output_tokens + d.2.1,
            cache_creation_tokens := tt.cache_creation_tokens + d.2.2 } }
      { st with turns := st.turns.set turn_idx turn }
    else progressAddToCurrentTurn d.1 d.2.1 d.2.2 st
  | none => progressAddToCurrentTurn d.1 d.2.1 d.2.2 st

/-- `_process_progress_entry`.  The Python code stores only the three fields
`inp`/`out`/`cache_c` in `seen_subagent_msg_ids`; the model stores the whole
snapshot, whose `cache_read_input_tokens` component is never consulted.  The
delta is computed against the dedup table before the snapshot is stored,
exactly as in the source. -/
def process_progress_entry (toolUseID : String) (data : ProgressPayload)
    (st : ParseState) : ParseState :=
  match data with
  | .otherProgress => st
  | .agentAssistant msg_id usage? =>
    match usage? with
    | none => st
    | some u =>
      let d := subagentDelta msg_id u st.seen_subagent_msg_ids
      subagentAttribute toolUseID d (subagentAccumulate msg_id u d st)

/-- The timestamp/git-branch prelude of `_process_entry`: set `start_time`
once, update `end_time` on every timestamped entry (both localized), and
capture the first truthy `gitBranch`. -/
def recordTimeBranch (loc : Nat → Nat) (e : Entry) (st : ParseState) :
    ParseState :=
  let st :=
    match e.timestamp with
    | some ts =>
      let local_ts := loc ts
      let st :=
        if st.start_time = none then { st with start_time := some local_ts }
        else st
      { st with end_time := some local_ts }
    | none => st
  if ¬ truthy st.git_branch then { st with git_branch := e.gitBranch }
  else st

/-- `_process_entry`: skip noise types, record timestamp (localized) and git
branch, dispatch on the entry type. -/
def process_entry (loc : Nat → Nat) (e : Entry) (st : ParseState) :
    ParseState :=
  if e.payload = .skipKind then st
  else
    let st := recordTimeBranch loc e st
    match e.payload with
    | .user isMeta content? => process_user_entry loc e.timestamp isMeta content? st
    | .assistant msg? => process_assistant_entry msg? st
    | .progress tid data => process_progress_entry tid data st
    | .skipKind => st
    | .otherKind => st

/-- A decoded JSONL line: `none` models a blank line or a line on which
`json.loads` raises `JSONDecodeError` (both are skipped with `continue`). -/
abbrev JsonLine := Option Entry

/-- The loop body of `read_session`: skip undecodable lines, process the
rest. -/
def processLine (loc : Nat → Nat) (st : ParseState) (l : JsonLine) :
    ParseState :=
  match l with
  | none => st
  | some e => process_entry loc e st

/-- The read loop of `read_session` over all lines of the file. -/
def processLines (loc : Nat → Nat) (lines : List JsonLine) (st : ParseState) :
    ParseState :=
  lines.foldl (processLine loc) st

/-- Python `round(x, 1)`, as applied by the code to a duration or a sum of
one-decimal durations.  CPython rounds the binary double nearest `x` to the
nearest tenth; at the tie points reached in this development the double lies
strictly below the exact tie, so the tie resolves downward (for example
`round(0.15, 1) == 0.1` because the double for `0.15` is
`0.1499999999999999944…`); away from ties this agrees with exact rounding.
Modelled as `⌈10·q − 1/2⌉ / 10`. -/
def round1 (q : ℚ) : ℚ := (⌈q * 10 - 1 / 2⌉ : ℚ) / 10

/-- Microseconds per minute: durations are `total_seconds() / 60.0`. -/
def MICROS_PER_MINUTE : ℚ := 60000000

/-- The duration computation of `read_session`: difference of the stored end
and start instants in minutes, rounded to one decimal, `0.0` when either
bound is missing. -/
def duration_minutes_of (start_time end_time : Option Nat) : ℚ :=
  match start_time, end_time with
  | some s, some e => round1 (((e : ℚ) - (s : ℚ)) / MICROS_PER_MINUTE)
  | _, _ => 0

/-- Python `str.strip("-")`. -/
def stripDashes (s : String) : String :=
  let cs := s.toList.dropWhile (· = '-')
  String.mk ((cs.reverse.dropWhile (· = '-')).reverse)

/-- `_decode_project_name`: last `-`-delimited segment of the stripped
encoded directory name (`split` never returns an empty list, so the
`if parts else encoded` fallback is unreachable). -/
def decode_project_name (encoded : String) : String :=
  let parts := splitOnChar '-' (stripDashes encoded).toList
  match parts.getLast? with
  | some p => String.mk p
  | none => encoded

/-- `ClaudeSessionData` (pydantic model), with timestamps as localized
instants. -/
structure ClaudeSessionData where
  session_id : String
  project_path : String
  project_name : String
  git_branch : Option String
  model : Option String
  start_time : Option Nat
  end_time : Option Nat
  duration_minutes : ℚ
  conversation : List ConversationTurn
  total_user_messages : Nat
  total_assistant_messages : Nat
  total_tool_calls : Nat
  total_tokens : Int
  input_tokens : Int
  output_tokens : Int
  cache_read_tokens : Int
  cache_creation_tokens : Int
  subagent_input_tokens : Int := 0
  subagent_output_tokens : Int := 0
  subagent_cache_creation_tokens : Int := 0
  tools_summary : List (String × Nat)
  files_read : List String
  files_written : List String
  commands_run : List String
deriving Repr, DecidableEq

/-- A resolved JSONL session file: the encoded name of its parent project
directory and its decoded lines. -/
structure SessionFile where
  encodedName : String
  lines : List JsonLine
deriving Repr, DecidableEq

/-- The assembly tail of `read_session`: final flush, duration, `total_tokens
= input + output + cache_creation` (cache-read excluded), and the result
record. -/
def sessionDataOfState (session_id project_path encodedName : String)
    (st : ParseState) : ClaudeSessionData :=
  let st := flush_turn st
  { session_id := session_id,
    project_path := if project_path ≠ "" then project_path else encodedName,
    project_name := decode_project_name encodedName,
    git_branch := st.git_branch,
    model := st.model,
    start_time := st.start_time,
    end_time := st.end_time,
    duration_minutes := duration_minutes_of st.start_time st.end_time,
    conversation := st.turns,
    total_user_messages := st.total_user_messages,
    total_assistant_messages := st.total_assistant_messages,
    total_tool_calls := st.total_tool_calls,
    total_tokens := st.input_tokens + st.output_tokens +
      st.cache_creation_tokens,
    input_tokens := st.input_tokens,
    output_tokens := st.output_tokens,
    cache_read_tokens := st.cache_read_tokens,
    cache_creation_tokens := st.cache_creation_tokens,
    subagent_input_tokens := st.subagent_input_tokens,
    subagent_output_tokens := st.subagent_output_tokens,
    subagent_cache_creation_tokens := st.subagent_cache_creation_tokens,
    tools_summary := st.tools_summary,
    files_read := sortStrings st.files_read,
    files_written := sortStrings st.files_written,
    commands_run := st.commands_run }

/-- `read_session`, over an abstract file-resolution outcome: `file? = none`
models `_find_session_file` returning `None`, on which the code raises
`FileNotFoundError`; otherwise the file's lines are parsed in a single
pass. -/
def read_session (loc : Nat → Nat) (session_id project_path : String)
    (file? : Option SessionFile) : Except String ClaudeSessionData :=
  match file? with
  | none => Except.error ("No JSONL session found: " ++ session_id)
  | some f =>
    Except.ok (sessionDataOfState session_id project_path f.encodedName
      (processLines loc f.lines initState))

/-- `read_session` of a `ClaudeSessionService` configured with
`tz_offset_hours`. -/
def read_session_at (tz_offset_hours : Int) (session_id project_path : String)
    (file? : Option SessionFile) : Except String ClaudeSessionData :=
  read_session (toLocalInstant tz_offset_hours) session_id project_path file?

/-! ### The stats / cache / aggregation layer (`jsonl_stats_service.py`) -/

/-- `CachedSessionStats` (pydantic model).  `jsonl_mtime` is a float compared
only for equality, modelled as `ℚ`. -/
structure CachedSessionStats where
  session_id : String
  project_name : String
  project_path : String
  git_branch : Option String
  model : Option String
  start_time : Option Nat
  end_time : Option Nat
  duration_minutes : ℚ
  total_user_messages : Nat
  total_assistant_messages : Nat
  total_tool_calls : Nat
  input_tokens : Int
  output_tokens : Int
  cache_creation_tokens : Int
  cache_read_tokens : Int
  subagent_input_tokens : Int
  subagent_output_tokens : Int
  subagent_cache_creation_tokens : Int
  tools_summary : List (String × Nat)
  jsonl_mtime : ℚ
  jsonl_path : String
deriving Repr, DecidableEq

/-- `_to_cached_stats`: project a `ClaudeSessionData` into the compact cache
schema, stamping the source file's modification time and path. -/
def to_cached_stats (data : ClaudeSessionData) (jsonl_mtime : ℚ)
    (jsonl_path : String) : CachedSessionStats :=
  { session_id := data.session_id,
    project_name := data.project_name,
    project_path := data.project_path,
    git_branch := data.git_branch,
    model := data.model,
    start_time := data.start_time,
    end_time := data.end_time,
    duration_minutes := data.duration_minutes,
    total_user_messages := data.total_user_messages,
    total_assistant_messages := data.total_assistant_messages,
    total_tool_calls := data.total_tool_calls,
    input_tokens := data.input_tokens,
    output_tokens := data.output_tokens,
    cache_creation_tokens := data.cache_creation_tokens,
    cache_read_tokens := data.cache_read_tokens,
    subagent_input_tokens := data.subagent_input_tokens,
    subagent_output_tokens := data.subagent_output_tokens,
    subagent_cache_creation_tokens := data.subagent_cache_creation_tokens,
    tools_summary := data.tools_summary,
    jsonl_mtime := jsonl_mtime,
    jsonl_path := jsonl_path }

/-- `_is_cache_valid`: the cached record is valid iff its stored source
modification time exactly equals the current one. -/
def is_cache_valid (cached : CachedSessionStats) (jsonl_mtime : ℚ) : Bool :=
  cached.jsonl_mtime == jsonl_mtime

/-- Observable outcome of one `extract_session_stats` call: the returned
record, whether `_save_cache` wrote the cache file, and the cache content for
this session id afterwards. -/
structure ExtractOutcome where
  result : CachedSessionStats
  cacheWritten : Bool
  cacheAfter : Option CachedSessionStats
deriving Repr, DecidableEq

/-- `extract_session_stats` after the source file has resolved, over an
abstract cache-lookup outcome: `cached? = none` models `_find_cached`
returning `None` (no matching cache file, or one that fails to decode);
`data` is the session the (re-)parse `read_session` would produce.  The
returned outcome records whether the cache file was rewritten and what a
subsequent `_find_cached` would decode. -/
def extract_session_stats (cached? : Option CachedSessionStats)
    (jsonl_mtime : ℚ) (data : ClaudeSessionData) (jsonl_path : String) :
    ExtractOutcome :=
  match cached? with
  | some c =>
    if is_cache_valid c jsonl_mtime then
      { result := c, cacheWritten := false, cacheAfter := some c }
    else
      let stats := to_cached_stats data jsonl_mtime jsonl_path
      { result := stats, cacheWritten := true, cacheAfter := some stats }
  | none =>
    let stats := to_cached_stats data jsonl_mtime jsonl_path
    { result := stats, cacheWritten := true, cacheAfter := some stats }

/-- `DailyAggregate` (pydantic model), with the numeric fields the claims
quantify over. -/
structure DailyAggregate where
  date_range : String
  total_sessions : Nat
  total_duration_minutes : ℚ
  total_input_tokens : Int
  total_output_tokens : Int
  total_cache_creation_tokens : Int
  total_cache_read_tokens : Int
  total_subagent_input_tokens : Int
  total_subagent_output_tokens : Int
  total_subagent_cache_creation_tokens : Int
  total_tool_calls : Nat
  total_user_messages : Nat
  total_assistant_messages : Nat
  tools_histogram : List (String × Nat)
  model_distribution : List (String × Nat)
  projects : List String
  sessions : List CachedSessionStats
  cached_count : Nat
  parsed_count : Nat
deriving Repr, DecidableEq

/-- The per-session loop body of `_aggregate`, acting on the mutable
accumulators (duration, token and message totals, tool histogram, model
distribution, project set). -/
structure AggAcc where
  total_duration : ℚ := 0
  total_input : Int := 0
  total_output : Int := 0
  total_cache_creation : Int := 0
  total_cache_read : Int := 0
  total_subagent_input : Int := 0
  total_subagent_output : Int := 0
  total_subagent_cache_creation : Int := 0
  total_tool_calls : Nat := 0
  total_user_messages : Nat := 0
  total_assistant_messages : Nat := 0
  tools_histogram : List (String × Nat) := []
  model_distribution : List (String × Nat) := []
  projects : List String := []
deriving Repr, DecidableEq

/-- One iteration of the `for s in sessions` loop of `_aggregate`. -/
def aggStep (acc : AggAcc) (s : CachedSessionStats) : AggAcc :=
  let acc := { acc with
    total_duration := acc.total_duration + s.duration_minutes,
    total_input := acc.total_input + s.input_tokens,
    total_output := acc.total_output + s.output_tokens,
    total_cache_creation := acc.total_cache_creation + s.cache_creation_tokens,
    total_cache_read := acc.total_cache_read + s.cache_read_tokens,
    total_subagent_input := acc.total_subagent_input + s.subagent_input_tokens,
    total_subagent_output :=
      acc.total_subagent_output + s.subagent_output_tokens,
    total_subagent_cache_creation :=
      acc.total_subagent_cache_creation + s.subagent_cache_creation_tokens,
    total_tool_calls := acc.total_tool_calls + s.total_tool_calls,
    total_user_messages := acc.total_user_messages + s.total_user_messages,
    total_assistant_messages :=
      acc.total_assistant_messages + s.total_assistant_messages }
  let acc := { acc with
    tools_histogram := s.tools_summary.foldl
      (fun (h : List (String × Nat)) (p : String × Nat) =>
        dictInsert h p.1 (lookupD h p.1 0 + p.2))
      acc.tools_histogram }
  let acc :=
    match s.model with
    | some m =>
      if m ≠ "" then
        let md := dictInsert acc.model_distribution m
          (lookupD acc.model_distribution m 0 + 1)
        { acc with model_distribution := md }
      else acc
    | none => acc
  { acc with projects := setInsert acc.projects s.project_name }

/-- `_aggregate`: fold a list of cached per-session stats into one
`DailyAggregate`. -/
def aggregate (sessions : List CachedSessionStats) (date_range : String)
    (cached_count parsed_count : Nat) : DailyAggregate :=
  let acc := sessions.foldl aggStep {}
  { date_range := date_range,
    total_sessions := sessions.length,
    total_duration_minutes := round1 acc.total_duration,
    total_input_tokens := acc.total_input,
    total_output_tokens := acc.total_output,
    total_cache_creation_tokens := acc.total_cache_creation,
    total_cache_read_tokens := acc.total_cache_read,
    total_subagent_input_tokens := acc.total_subagent_input,
    total_subagent_output_tokens := acc.total_subagent_output,
    total_subagent_cache_creation_tokens := acc.total_subagent_cache_creation,
    total_tool_calls := acc.total_tool_calls,
    total_user_messages := acc.total_user_messages,
    total_assistant_messages := acc.total_assistant_messages,
    tools_histogram := acc.tools_histogram,
    model_distribution := acc.model_distribution,
    projects := sortStrings acc.projects,
    sessions := sessions,
    cached_count := cached_count,
    parsed_count := parsed_count }

/-- The date-discovery filter of `get_daily_stats`: days are modelled as
integers (`date.fromisoformat` order-isomorphically).  Each candidate file is
a session id paired with the date `_get_session_date` extracts from its first
timestamp (`none` when no timestamp is found, on which the file is skipped
with `continue`); a file is kept iff `start_date <= session_date <=
end_date`, where the end date defaults to the start date when no `date_end`
was supplied. -/
def matchingSessions (files : List (String × Option Int)) (start_date : Int)
    (date_end : Option Int) : List String :=
  let end_date := date_end.getD start_date
  files.filterMap fun f =>
    match f.2 with
    | none => none
    | some d =>
      if start_date ≤ d ∧ d ≤ end_date then some f.1 else none

/-! ### Association-list lemmas -/

theorem lookup_cons {α : Type} (pk : String) (pv : α) (m : List (String × α))
    (k : String) :
    ((pk, pv) :: m).lookup k = if pk = k then some pv else m.lookup k := by
  simp only [List.lookup]
  by_cases h : pk = k
  · simp [h]
  · have hb : (k == pk) = false := by
      simp [Ne.symm h]
    simp [hb, h]

theorem lookupD_cons {α : Type} (pk : String) (pv : α) (m : List (String × α))
    (k : String) (d : α) :
    lookupD ((pk, pv) :: m) k d = if pk = k then pv else lookupD m k d := by
  unfold lookupD
  rw [lookup_cons]
  by_cases h : pk = k <;> simp [h]

theorem dictInsert_cons_ne {α : Type} (pk : String) (pv : α)
    (m : List (String × α)) (k : String) (v : α) (h : pk ≠ k) :
    dictInsert ((pk, pv) :: m) k v = (pk, pv) :: dictInsert m k v := by
  unfold dictInsert
  by_cases hm : m.any (fun q => q.1 == k) <;> simp [List.any_cons, hm, h]

theorem map_replace_of_not_mem {α : Type} (m : List (String × α))
    (k : String) (v : α) (h : k ∉ m.map Prod.fst) :
    m.map (fun p => if p.1 == k then (k, v) else p) = m := by
  induction m with
  | nil => rfl
  | cons p m ih =>
    obtain ⟨pk, pv⟩ := p
    rw [List.map_cons, List.mem_cons] at h
    push_neg at h
    rw [List.map_cons, if_neg (by simp [Ne.symm h.1]), ih h.2]

theorem dictInsert_cons_eq_nodup {α : Type} (pk : String) (pv : α)
    (m : List (String × α)) (k : String) (v : α) (h : pk = k)
    (hnd : (((pk, pv) :: m).map Prod.fst).Nodup) :
    dictInsert ((pk, pv) :: m) k v = (k, v) :: m := by
  subst h
  rw [List.map_cons, List.nodup_cons] at hnd
  unfold dictInsert
  rw [if_pos (by simp)]
  have hb : (((pk, pv).1 == pk) = true) := by simp
  rw [List.map_cons, if_pos hb, map_replace_of_not_mem m pk v hnd.1]

theorem mem_keys_dictInsert {α : Type} (m : List (String × α)) (k : String)
    (v : α) (a : String) (h : a ∈ (dictInsert m k v).map Prod.fst) :
    a = k ∨ a ∈ m.map Prod.fst := by
  unfold dictInsert at h
  by_cases hm : m.any (fun q => q.1 == k)
  · rw [if_pos hm] at h
    rw [List.mem_map] at h
    rcases h with ⟨p, hp, hf⟩
    rw [List.mem_map] at hp
    rcases hp with ⟨q, hq, hfq⟩
    by_cases hqk : (q.1 == k) = true
    · rw [if_pos hqk] at hfq
      left
      rw [← hf, ← hfq]
    · rw [if_neg hqk] at hfq
      right
      rw [← hf, ← hfq]
      exact List.mem_map_of_mem Prod.fst hq
  · rw [if_neg hm, List.map_append, List.mem_append] at h
    rcases h with h | h
    · exact Or.inr h
    · simp at h
      exact Or.inl h

theorem keys_nodup_dictInsert {α : Type} (m : List (String × α)) (k : String)
    (v : α) (hnd : (m.map Prod.fst).Nodup) :
    ((dictInsert m k v).map Prod.fst).Nodup := by
  induction m with
  | nil => simp [dictInsert]
  | cons p m ih =>
    obtain ⟨pk, pv⟩ := p
    by_cases h : pk = k
    · rw [dictInsert_cons_eq_nodup pk pv m k v h hnd]
      subst h
      rw [List.map_cons, List.nodup_cons] at hnd ⊢
      exact hnd
    · rw [List.map_cons, List.nodup_cons] at hnd
      rw [dictInsert_cons_ne pk pv m k v h, List.map_cons, List.nodup_cons]
      refine ⟨fun hmem => ?_, ih hnd.2⟩
      rcases mem_keys_dictInsert m k v pk hmem with h1 | h1
      · exact h h1
      · exact hnd.1 h1

theorem sum_snd_dictInsert_nodup (m : List (String × Nat)) (k : String)
    (v : Nat) (hnd : (m.map Prod.fst).Nodup) :
    ((dictInsert m k v).map Prod.snd).sum + lookupD m k 0 =
      (m.map Prod.snd).sum + v := by
  induction m with
  | nil => simp [dictInsert, lookupD]
  | cons p m ih =>
    obtain ⟨pk, pv⟩ := p
    by_cases h : pk = k
    · rw [dictInsert_cons_eq_nodup pk pv m k v h hnd, lookupD_cons, if_pos h]
      simp
      omega
    · rw [List.map_cons, List.nodup_cons] at hnd
      rw [dictInsert_cons_ne pk pv m k v h, lookupD_cons, if_neg h]
      simp only [List.map_cons, List.sum_cons]
      have := ih hnd.2
      omega

theorem lookup_map_replace {α : Type} (m : List (String × α)) (k : String)
    (v : α) (a : String) (h : a ≠ k) :
    (m.map (fun p => if p.1 == k then (k, v) else p)).lookup a =
      m.lookup a := by
  induction m with
  | nil => rfl
  | cons p m ih =>
    obtain ⟨pk, pv⟩ := p
    by_cases hpk : (((pk, pv).1 == k) = true)
    · have hpk2 : pk = k := by simpa using hpk
      subst hpk2
      rw [List.map_cons, if_pos hpk, lookup_cons, lookup_cons,
        if_neg (fun hh => h hh.symm), if_neg (fun hh => h hh.symm), ih]
    · rw [List.map_cons, if_neg hpk, lookup_cons, lookup_cons]
      by_cases hpa : pk = a
      · rw [if_pos hpa, if_pos hpa]
      · rw [if_neg hpa, if_neg hpa, ih]

theorem lookup_dictInsert {α : Type} (m : List (String × α)) (k : String)
    (v : α) (a : String) :
    (dictInsert m k v).lookup a = if a = k then some v else m.lookup a := by
  induction m with
  | nil =>
    unfold dictInsert
    rw [List.any_nil, if_neg (by simp), List.nil_append, lookup_cons]
    by_cases h : a = k
    · rw [if_pos h.symm, if_pos h]
    · rw [if_neg (fun hh => h hh.symm), if_neg h]
  | cons p m ih =>
    obtain ⟨pk, pv⟩ := p
    by_cases hpk : pk = k
    · subst hpk
      unfold dictInsert
      rw [if_pos (by simp)]
      have hb : (((pk, pv).1 == pk) = true) := by simp
      rw [List.map_cons, if_pos hb, lookup_cons]
      by_cases ha : a = pk
      · subst ha
        rw [if_pos rfl, if_pos rfl]
      · rw [if_neg (fun hh => ha hh.symm), if_neg ha,
          lookup_map_replace m pk v a ha, lookup_cons,
          if_neg (fun hh => ha hh.symm)]
    · rw [dictInsert_cons_ne pk pv m k v hpk, lookup_cons, lookup_cons, ih]
      by_cases hpa : pk = a
      · rw [if_pos hpa, if_pos hpa, if_neg (fun hh => hpk (hpa ▸ hh))]
      · rw [if_neg hpa, if_neg hpa]

/-! ### The machine invariant underlying the token-sum and tool-count
claims -/

/-- Sum of one token field over the emitted turns. -/
def turnsTokSum (f : TurnTokens → Int) (l : List ConversationTurn) : Int :=
  (l.map fun t => f t.tokens).sum

/-- One token field of the in-progress accumulator (0 when none). -/
def curTok (f : TurnAccumulator → Int) (st : ParseState) : Int :=
  match st.current_turn with
  | some a => f a
  | none => 0

/-- The still-undrained part of an orphan counter. -/
def orphanLeft (st : ParseState) (v : Int) : Int :=
  if st.orphan_drained then 0 else v

/-- Invariant maintained by `_process_entry` across the parse: each
session-level token counter splits into the emitted turns, the in-progress
accumulator and the undrained orphan bucket; an absent accumulator means no
flush has happened yet; no flush means no emitted turn; and the tool-call
counter equals the histogram mass (whose keys stay distinct). -/
def MachineInv (st : ParseState) : Prop :=
  st.input_tokens = turnsTokSum (fun t => t.input_tokens) st.turns +
      curTok (fun a => a.input_tokens) st +
      orphanLeft st st.orphan_input_tokens ∧
  st.output_tokens = turnsTokSum (fun t => t.output_tokens) st.turns +
      curTok (fun a => a.output_tokens) st +
      orphanLeft st st.orphan_output_tokens ∧
  st.cache_read_tokens = turnsTokSum (fun t => t.cache_read_tokens) st.turns +
      curTok (fun a => a.cache_read_tokens) st +
      orphanLeft st st.orphan_cache_read_tokens ∧
  st.cache_creation_tokens =
      turnsTokSum (fun t => t.cache_creation_tokens) st.turns +
      curTok (fun a => a.cache_creation_tokens) st +
      orphanLeft st st.orphan_cache_creation_tokens ∧
  (st.current_turn = none → st.orphan_drained = false) ∧
  (st.orphan_drained = false → st.turns = []) ∧
  st.total_tool_calls = (st.tools_summary.map Prod.snd).sum ∧
  (st.tools_summary.map Prod.fst).Nodup

theorem turnsTokSum_append (f : TurnTokens → Int) (l : List ConversationTurn)
    (t : ConversationTurn) :
    turnsTokSum f (l ++ [t]) = turnsTokSum f l + f t.tokens := by
  simp [turnsTokSum]

theorem machineInv_init : MachineInv initState := by
  refine ⟨?_, ?_, ?_, ?_, ?_, ?_, ?_, ?_⟩ <;>
    simp [MachineInv, initState, turnsTokSum, curTok, orphanLeft]

theorem flush_turn_none (st : ParseState) (hc : st.current_turn = none) :
    flush_turn st = st := by
  unfold flush_turn
  rw [hc]

theorem flush_turn_some (st : ParseState) (a : TurnAccumulator)
    (hc : st.current_turn = some a) :
    ∃ turn : ConversationTurn,
      flush_turn st = { st with
        turns := st.turns ++ [turn],
        current_turn := none, orphan_drained := true } ∧
      turn.tokens.input_tokens = a.input_tokens +
        (if st.orphan_drained then 0 else st.orphan_input_tokens) ∧
      turn.tokens.output_tokens = a.output_tokens +
        (if st.orphan_drained then 0 else st.orphan_output_tokens) ∧
      turn.tokens.cache_read_tokens = a.cache_read_tokens +
        (if st.orphan_drained then 0 else st.orphan_cache_read_tokens) ∧
      turn.tokens.cache_creation_tokens = a.cache_creation_tokens +
        (if st.orphan_drained then 0 else st.orphan_cache_creation_tokens) := by
  unfold flush_turn
  rw [hc]
  refine ⟨_, rfl, ?_, ?_, ?_, ?_⟩ <;>
    by_cases hd : st.orphan_drained <;> simp [hd]

/-- Starting a fresh turn (flush, then install a token-free accumulator)
preserves the machine invariant. -/
theorem machineInv_startTurn (st : ParseState) (acc : TurnAccumulator)
    (h0 : acc.input_tokens = 0) (h1 : acc.output_tokens = 0)
    (h2 : acc.cache_read_tokens = 0) (h3 : acc.cache_creation_tokens = 0)
    (h : MachineInv st) :
    MachineInv { flush_turn st with current_turn := some acc } := by
  obtain ⟨e1, e2, e3, e4, c5, c6, c7, c8⟩ := h
  cases hc : st.current_turn with
  | none =>
    rw [flush_turn_none st hc]
    rw [MachineInv] at *
    refine ⟨?_, ?_, ?_, ?_, by simp, by simpa using c6, c7, c8⟩ <;>
      simp only [curTok, hc, orphanLeft, turnsTokSum] at e1 e2 e3 e4 ⊢ <;>
      simp [h0, h1, h2, h3] <;> omega
  | some a =>
    obtain ⟨turn, hft, t1, t2, t3, t4⟩ := flush_turn_some st a hc
    rw [hft]
    by_cases hd : st.orphan_drained <;>
      refine ⟨?_, ?_, ?_, ?_, by simp, by simp, c7, c8⟩ <;>
      simp [curTok, hc, orphanLeft, turnsTokSum_append, turnsTokSum, hd, h0,
        h1, h2, h3, t1, t2, t3, t4] at e1 e2 e3 e4 ⊢ <;>
      omega

/-- Preservation of a predicate along a left fold. -/
theorem foldl_pres {α σ : Type} (P : σ → Prop) (f : σ → α → σ)
    (hf : ∀ s a, P s → P (f s a)) :
    ∀ (l : List α) (s : σ), P s → P (l.foldl f s) := by
  intro l
  induction l with
  | nil => intro s hs; exact hs
  | cons a l ih => intro s hs; exact ih (f s a) (hf s a hs)

/-! ### Preservation of the machine invariant by each entry step -/

theorem machineInv_resolveToolResult (st : ParseState) (b : ContentBlock)
    (h : MachineInv st) : MachineInv (resolveToolResult st b) := by
  cases b with
  | text t => exact h
  | tool_use n i inp => exact h
  | otherBlock => exact h
  | tool_result tid isErr =>
    simp only [resolveToolResult]
    cases hc : st.current_turn with
    | none => exact h
    | some ct =>
      simp only []
      cases hl : ct.pending_commands.lookup tid with
      | none => exact h
      | some cmd =>
        simp only [hl]
        obtain ⟨e1, e2, e3, e4, c5, c6, c7, c8⟩ := h
        refine ⟨?_, ?_, ?_, ?_, by simp, c6, c7, c8⟩ <;>
          simp only [curTok, hc, orphanLeft, turnsTokSum] at e1 e2 e3 e4 ⊢ <;>
          omega

theorem machineInv_extract_file_activity (tool_name : String)
    (tool_input : ToolInput) (st : ParseState) (h : MachineInv st) :
    MachineInv (extract_file_activity tool_name tool_input st) := by
  unfold extract_file_activity
  repeat' split
  all_goals exact h

/-- Replacing the in-progress accumulator with one whose token fields agree
preserves the machine invariant. -/
theorem machineInv_updateCurrent (st : ParseState) (ct ct2 : TurnAccumulator)
    (hc : st.current_turn = some ct)
    (h1 : ct2.input_tokens = ct.input_tokens)
    (h2 : ct2.output_tokens = ct.output_tokens)
    (h3 : ct2.cache_read_tokens = ct.cache_read_tokens)
    (h4 : ct2.cache_creation_tokens = ct.cache_creation_tokens)
    (h : MachineInv st) : MachineInv { st with current_turn := some ct2 } := by
  obtain ⟨e1, e2, e3, e4, c5, c6, c7, c8⟩ := h
  refine ⟨?_, ?_, ?_, ?_, by simp, c6, c7, c8⟩ <;>
    simp only [curTok, hc, orphanLeft, turnsTokSum, h1, h2, h3, h4]
      at e1 e2 e3 e4 ⊢ <;>
    omega

theorem machineInv_tallyToolUse (name : String) (st : ParseState)
    (h : MachineInv st) : MachineInv (tallyToolUse name st) := by
  obtain ⟨e1, e2, e3, e4, c5, c6, c7, c8⟩ := h
  refine ⟨e1, e2, e3, e4, c5, c6, ?_, keys_nodup_dictInsert _ _ _ c8⟩
  have := sum_snd_dictInsert_nodup st.tools_summary name
    (lookupD st.tools_summary name 0 + 1) c8
  simp only [tallyToolUse]
  omega

theorem machineInv_appendToolUsed (name : String) (st : ParseState)
    (h : MachineInv st) : MachineInv (appendToolUsed name st) := by
  unfold appendToolUsed
  cases hc : st.current_turn with
  | none => exact h
  | some ct => exact machineInv_updateCurrent st ct _ hc rfl rfl rfl rfl h

theorem machineInv_turnTrackToolUse (name id : String) (input : ToolInput)
    (st : ParseState) (h : MachineInv st) :
    MachineInv (turnTrackToolUse name id input st) := by
  unfold turnTrackToolUse
  split
  · rename_i ct hc
    repeat' split
    all_goals
      first
      | exact h
      | exact machineInv_updateCurrent st ct _ hc rfl rfl rfl rfl h
  · exact h

theorem machineInv_recordTaskId (name id : String) (st : ParseState)
    (h : MachineInv st) : MachineInv (recordTaskId name id st) := by
  unfold recordTaskId
  split
  · exact h
  · exact h

theorem machineInv_processToolUseBlock (name id : String) (input : ToolInput)
    (st : ParseState) (h : MachineInv st) :
    MachineInv (processToolUseBlock name id input st) := by
  unfold processToolUseBlock
  split
  · exact machineInv_recordTaskId name id _
      (machineInv_turnTrackToolUse name id input _
        (machineInv_extract_file_activity name input _
          (machineInv_appendToolUsed name _
            (machineInv_tallyToolUse name st h))))
  · exact h

theorem machineInv_processContentBlock (st : ParseState) (b : ContentBlock)
    (h : MachineInv st) : MachineInv (processContentBlock st b) := by
  cases b with
  | tool_use name id input => exact machineInv_processToolUseBlock name id input st h
  | tool_result tid isErr => exact h
  | otherBlock => exact h
  | text t =>
    simp only [processContentBlock]
    split
    · cases hc : st.current_turn with
      | none => exact h
      | some ct => exact machineInv_updateCurrent st ct _ hc rfl rfl rfl rfl h
    · exact h

theorem machineInv_setModelIfAbsent (model? : Option String) (st : ParseState)
    (h : MachineInv st) : MachineInv (setModelIfAbsent model? st) := by
  unfold setModelIfAbsent
  repeat' split
  all_goals exact h

theorem machineInv_applyAssistantUsage (msg_id : String)
    (usage? : Option Usage) (st : ParseState) (h : MachineInv st) :
    MachineInv (applyAssistantUsage msg_id usage? st) := by
  cases usage? with
  | none => exact h
  | some u =>
    obtain ⟨e1, e2, e3, e4, c5, c6, c7, c8⟩ := h
    simp only [applyAssistantUsage]
    by_cases hm : msg_id ≠ "" <;>
      [rw [if_pos hm]; rw [if_neg hm]] <;>
      (try dsimp only) <;>
      cases hcur : st.current_turn with
      | some ct =>
        refine ⟨?_, ?_, ?_, ?_, by simp, c6, c7, c8⟩ <;>
          simp only [curTok, hcur, orphanLeft, turnsTokSum] at e1 e2 e3 e4 ⊢ <;>
          split <;> dsimp only <;> omega
      | none =>
        have hdr := c5 hcur
        refine ⟨?_, ?_, ?_, ?_, fun _ => hdr, c6, c7, c8⟩ <;>
          simp only [curTok, hcur, orphanLeft, hdr, turnsTokSum,
            if_false, Bool.false_eq_true] at e1 e2 e3 e4 ⊢ <;>
          omega

theorem machineInv_process_assistant_entry (msg? : Option AssistantMessage)
    (st : ParseState) (h : MachineInv st) :
    MachineInv (process_assistant_entry msg? st) := by
  unfold process_assistant_entry
  cases msg? with
  | none => exact h
  | some msg =>
    dsimp only
    have h3 := machineInv_applyAssistantUsage msg.id msg.usage _
      (machineInv_setModelIfAbsent msg.model
        { st with total_assistant_messages := st.total_assistant_messages + 1 }
        h)
    cases hc : msg.content with
    | none => exact h3
    | some blocks =>
      exact foldl_pres MachineInv processContentBlock
        machineInv_processContentBlock blocks _ h3

theorem machineInv_process_user_entry (loc : Nat → Nat) (ts : Option Nat)
    (isMeta : Bool) (content? : Option UserContent) (st : ParseState)
    (h : MachineInv st) :
    MachineInv (process_user_entry loc ts isMeta content? st) := by
  unfold process_user_entry
  split
  · exact h
  · cases content? with
    | none => exact h
    | some c =>
      cases c with
      | otherContent => exact h
      | str s =>
        dsimp only
        split
        · split
          · exact h
          · split
            · exact h
            · exact machineInv_startTurn _ _ rfl rfl rfl rfl h
        · exact h
      | blocks bs =>
        dsimp only
        split
        · cases hc : st.current_turn with
          | none => exact h
          | some ct =>
            exact foldl_pres MachineInv resolveToolResult
              machineInv_resolveToolResult bs st h
        · split
          · exact machineInv_startTurn _ _ rfl rfl rfl rfl h
          · exact h

theorem machineInv_progressAddToCurrentTurn (a b c : Int) (st : ParseState)
    (h : MachineInv st) : MachineInv (progressAddToCurrentTurn a b c st) := by
  unfold progressAddToCurrentTurn
  split
  · rename_i ct hc
    exact machineInv_updateCurrent st ct _ hc rfl rfl rfl rfl h
  · exact h

theorem machineInv_subagentAccumulate (msg_id : String) (u : Usage)
    (d : Int × Int × Int) (st : ParseState) (h : MachineInv st) :
    MachineInv (subagentAccumulate msg_id u d st) := by
  unfold subagentAccumulate
  dsimp only
  split
  · exact h
  · exact h

theorem turnsTokSum_set (f : TurnTokens → Int) (l : List ConversationTurn)
    (n : Nat) (t : ConversationTurn)
    (ht : ∀ hn : n < l.length, t.tokens = (l.get ⟨n, hn⟩).tokens) :
    turnsTokSum f (l.set n t) = turnsTokSum f l := by
  induction l generalizing n with
  | nil => simp [turnsTokSum]
  | cons x xs ih =>
    cases n with
    | zero =>
      have hx := ht (by simp)
      simp only [List.set, turnsTokSum, List.map_cons, List.sum_cons]
      rw [hx]
      rfl
    | succ m =>
      simp only [List.set, turnsTokSum, List.map_cons, List.sum_cons]
      have := ih m (fun hm => by
        have := ht (by simpa using Nat.succ_lt_succ hm)
        simpa using this)
      simp only [turnsTokSum] at this
      omega

/-- Replacing an emitted turn by one with identical `tokens` preserves the
machine invariant. -/
theorem machineInv_setTurn (st : ParseState) (idx : Nat)
    (turn2 : ConversationTurn) (hlt : idx < st.turns.length)
    (htok : turn2.tokens = (st.turns.get ⟨idx, hlt⟩).tokens)
    (h : MachineInv st) :
    MachineInv { st with turns := st.turns.set idx turn2 } := by
  obtain ⟨e1, e2, e3, e4, c5, c6, c7, c8⟩ := h
  have hset : ∀ f : TurnTokens → Int,
      turnsTokSum f (st.turns.set idx turn2) = turnsTokSum f st.turns :=
    fun f => turnsTokSum_set f st.turns idx turn2 (fun hn => htok)
  refine ⟨?_, ?_, ?_, ?_, c5, fun hdr => by rw [c6 hdr]; simp, c7, c8⟩
  all_goals
    simp only [curTok, orphanLeft, hset] at e1 e2 e3 e4 ⊢ <;> omega

theorem machineInv_subagentAttribute (tid : String) (d : Int × Int × Int)
    (st : ParseState) (h : MachineInv st) :
    MachineInv (subagentAttribute tid d st) := by
  unfold subagentAttribute
  cases hl : st.task_tool_use_ids.lookup tid with
  | none => exact machineInv_progressAddToCurrentTurn _ _ _ st h
  | some idx =>
    dsimp only
    split
    · rename_i hlt
      exact machineInv_setTurn st idx _ hlt rfl h
    · exact machineInv_progressAddToCurrentTurn _ _ _ st h

theorem machineInv_process_progress_entry (tid : String)
    (data : ProgressPayload) (st : ParseState) (h : MachineInv st) :
    MachineInv (process_progress_entry tid data st) := by
  cases data with
  | otherProgress => exact h
  | agentAssistant mid usage? =>
    cases usage? with
    | none => exact h
    | some u =>
      simp only [process_progress_entry]
      exact machineInv_subagentAttribute tid _ _
        (machineInv_subagentAccumulate mid u _ st h)

theorem machineInv_recordTimeBranch (loc : Nat → Nat) (e : Entry)
    (st : ParseState) (h : MachineInv st) :
    MachineInv (recordTimeBranch loc e st) := by
  unfold recordTimeBranch
  cases e.timestamp <;> dsimp only <;> repeat' split
  all_goals exact h

theorem machineInv_process_entry (loc : Nat → Nat) (e : Entry)
    (st : ParseState) (h : MachineInv st) :
    MachineInv (process_entry loc e st) := by
  unfold process_entry
  split
  · exact h
  · dsimp only
    have h2 := machineInv_recordTimeBranch loc e st h
    cases hp : e.payload with
    | user isMeta content? =>
      exact machineInv_process_user_entry loc e.timestamp isMeta content? _ h2
    | assistant msg? => exact machineInv_process_assistant_entry msg? _ h2
    | progress tid data =>
      exact machineInv_process_progress_entry tid data _ h2
    | skipKind => exact h2
    | otherKind => exact h2

theorem machineInv_processLines (loc : Nat → Nat) (lines : List JsonLine)
    (st : ParseState) (h : MachineInv st) :
    MachineInv (processLines loc lines st) := by
  unfold processLines
  refine foldl_pres MachineInv (processLine loc) ?_ lines st h
  intro s l hs
  cases l with
  | none => exact hs
  | some e => exact machineInv_process_entry loc e s hs

/-- `_flush_turn` leaves every session-level counter untouched. -/
theorem flush_turn_counters (st : ParseState) :
    (flush_turn st).input_tokens = st.input_tokens ∧
    (flush_turn st).output_tokens = st.output_tokens ∧
    (flush_turn st).cache_read_tokens = st.cache_read_tokens ∧
    (flush_turn st).cache_creation_tokens = st.cache_creation_tokens ∧
    (flush_turn st).total_tool_calls = st.total_tool_calls ∧
    (flush_turn st).tools_summary = st.tools_summary ∧
    (flush_turn st).subagent_input_tokens = st.subagent_input_tokens ∧
    (flush_turn st).subagent_output_tokens = st.subagent_output_tokens ∧
    (flush_turn st).subagent_cache_creation_tokens =
      st.subagent_cache_creation_tokens := by
  cases hc : st.current_turn with
  | none =>
    rw [flush_turn_none st hc]
    exact ⟨rfl, rfl, rfl, rfl, rfl, rfl, rfl, rfl, rfl⟩
  | some a =>
    obtain ⟨turn, hft, -, -, -, -⟩ := flush_turn_some st a hc
    rw [hft]
    exact ⟨rfl, rfl, rfl, rfl, rfl, rfl, rfl, rfl, rfl⟩

/-- After the final flush, if at least one turn was emitted, every
session-level token counter equals the sum over the emitted turns. -/
theorem flush_sums_of_inv (st : ParseState) (h : MachineInv st)
    (hne : (flush_turn st).turns ≠ []) :
    (flush_turn st).input_tokens =
      turnsTokSum (fun t => t.input_tokens) (flush_turn st).turns ∧
    (flush_turn st).output_tokens =
      turnsTokSum (fun t => t.output_tokens) (flush_turn st).turns ∧
    (flush_turn st).cache_read_tokens =
      turnsTokSum (fun t => t.cache_read_tokens) (flush_turn st).turns ∧
    (flush_turn st).cache_creation_tokens =
      turnsTokSum (fun t => t.cache_creation_tokens) (flush_turn st).turns := by
  obtain ⟨e1, e2, e3, e4, c5, c6, c7, c8⟩ := h
  cases hc : st.current_turn with
  | none =>
    rw [flush_turn_none st hc] at hne ⊢
    have hdr : st.orphan_drained = true := by
      cases hdd : st.orphan_drained
      · exact absurd (c6 hdd) hne
      · rfl
    refine ⟨?_, ?_, ?_, ?_⟩ <;>
      simp only [curTok, hc, orphanLeft, hdr, if_true] at e1 e2 e3 e4 <;>
      omega
  | some a =>
    obtain ⟨turn, hft, t1, t2, t3, t4⟩ := flush_turn_some st a hc
    rw [hft]
    by_cases hd : st.orphan_drained <;>
      refine ⟨?_, ?_, ?_, ?_⟩ <;>
      simp [curTok, hc, orphanLeft, turnsTokSum_append, hd, t1, t2, t3, t4]
        at e1 e2 e3 e4 ⊢ <;>
      omega

/-! ### Concrete entry builders for witnesses and counterexamples -/

/-- A real user prompt entry. -/
def mkUserPrompt (ts : Option Nat) (s : String) : Entry :=
  { timestamp := ts, payload := .user false (some (.str s)) }

/-- An assistant entry carrying only a usage snapshot. -/
def mkAssistantUsage (ts : Option Nat) (mid : String) (u : Usage) : Entry :=
  { timestamp := ts, payload := .assistant (some { usage := some u, id := mid }) }

/-- An `agent_progress` entry with a doubly-nested usage snapshot. -/
def mkProgress (tuid mid : String) (u : Usage) : Entry :=
  { payload := .progress tuid (.agentAssistant mid (some u)) }

/-- An assistant entry with a usage snapshot and content blocks. -/
def mkAssistantBlocks (ts : Option Nat) (mid : String) (u : Usage)
    (blocks : List ContentBlock) : Entry :=
  { timestamp := ts,
    payload := .assistant (some
      { usage := some u, id := mid, content := some blocks }) }

/-! ### C1 -/

/-- C1 (amended): for every session returned by `read_session` whose
conversation contains at least one turn, the per-turn token sums equal the
session-level totals in all four dimensions. -/
theorem C1_token_sum_invariant (loc : Nat → Nat)
    (session_id project_path : String) (f : SessionFile)
    (d : ClaudeSessionData)
    (hok : read_session loc session_id project_path (some f) = Except.ok d)
    (hne : d.conversation ≠ []) :
    turnsTokSum (fun t => t.input_tokens) d.conversation = d.input_tokens ∧
    turnsTokSum (fun t => t.output_tokens) d.conversation = d.output_tokens ∧
    turnsTokSum (fun t => t.cache_read_tokens) d.conversation =
      d.cache_read_tokens ∧
    turnsTokSum (fun t => t.cache_creation_tokens) d.conversation =
      d.cache_creation_tokens := by
  have hd : d = sessionDataOfState session_id project_path f.encodedName
      (processLines loc f.lines initState) := by
    unfold read_session at hok
    exact (Except.ok.inj hok).symm
  subst hd
  have hsums := flush_sums_of_inv (processLines loc f.lines initState)
    (machineInv_processLines loc f.lines initState machineInv_init) hne
  exact ⟨hsums.1.symm, hsums.2.1.symm, hsums.2.2.1.symm, hsums.2.2.2.symm⟩

/-- Witness session for C1: one user prompt followed by one assistant
answer. -/
def c1WitnessFile : SessionFile :=
  { encodedName := "p",
    lines := [some (mkUserPrompt (some 0) "hello"),
      some (mkAssistantUsage (some 1000000) "m"
        { input_tokens := 10, output_tokens := 5,
          cache_read_input_tokens := 3, cache_creation_input_tokens := 2 })] }

/-- The session record parsed from the C1 witness file. -/
def c1WitnessData : ClaudeSessionData :=
  sessionDataOfState "s" "" "p"
    (processLines (toLocalInstant 0) c1WitnessFile.lines initState)

theorem C1_token_sum_invariant_witness :
    c1WitnessData.conversation ≠ [] ∧
    (turnsTokSum (fun t => t.input_tokens) c1WitnessData.conversation =
      c1WitnessData.input_tokens ∧
    turnsTokSum (fun t => t.output_tokens) c1WitnessData.conversation =
      c1WitnessData.output_tokens ∧
    turnsTokSum (fun t => t.cache_read_tokens) c1WitnessData.conversation =
      c1WitnessData.cache_read_tokens ∧
    turnsTokSum (fun t => t.cache_creation_tokens) c1WitnessData.conversation =
      c1WitnessData.cache_creation_tokens) :=
  ⟨by decide,
    C1_token_sum_invariant (toLocalInstant 0) "s" "" c1WitnessFile
      c1WitnessData rfl (by decide)⟩

/-- The C1 counterexample session: a single assistant entry carrying tokens
and no user message at all. -/
def c1OrphanOnlyFile : SessionFile :=
  { encodedName := "p",
    lines := [some (mkAssistantUsage (some 0) "m1"
      { input_tokens := 100, output_tokens := 50,
        cache_read_input_tokens := 500,
        cache_creation_input_tokens := 200 })] }

/-- C1 (counterexample to the claim as stated): a session whose only entry
is an assistant message with tokens has `input_tokens = 100` but an empty
conversation, so the per-turn sum `0` differs from the session total. -/
theorem C1_counterexample :
    (read_session (toLocalInstant 0) "sess-no-user" ""
        (some c1OrphanOnlyFile)).map
      (fun d => (turnsTokSum (fun t => t.input_tokens) d.conversation,
        d.input_tokens)) = Except.ok ((0 : Int), (100 : Int)) ∧
    (0 : Int) ≠ 100 := by
  exact ⟨rfl, by decide⟩

/-! ### C10 -/

/-- C10: in every parsed session, `total_tool_calls` equals the sum of all
counts in the `tools_summary` histogram. -/
theorem C10_tool_calls_eq_histogram_mass (loc : Nat → Nat)
    (session_id project_path : String) (f : SessionFile)
    (d : ClaudeSessionData)
    (hok : read_session loc session_id project_path (some f) = Except.ok d) :
    d.total_tool_calls = (d.tools_summary.map Prod.snd).sum := by
  have hd : d = sessionDataOfState session_id project_path f.encodedName
      (processLines loc f.lines initState) := by
    unfold read_session at hok
    exact (Except.ok.inj hok).symm
  subst hd
  have hinv := machineInv_processLines loc f.lines initState machineInv_init
  have c7 := hinv.2.2.2.2.2.2.1
  have hfr := flush_turn_counters (processLines loc f.lines initState)
  show (flush_turn (processLines loc f.lines initState)).total_tool_calls =
    ((flush_turn (processLines loc f.lines initState)).tools_summary.map
      Prod.snd).sum
  rw [hfr.2.2.2.2.1, hfr.2.2.2.2.2.1]
  exact c7

/-- Witness session for C10: a turn using the Bash tool twice and the Read
tool once. -/
def c10WitnessFile : SessionFile :=
  { encodedName := "p",
    lines := [some (mkUserPrompt (some 0) "run things"),
      some (mkAssistantBlocks (some 1000000) "m" { input_tokens := 4 }
        [ContentBlock.tool_use "Bash" "t1" { command := some "ls" },
         ContentBlock.tool_use "Read" "t2" { file_path := some "/tmp/a" },
         ContentBlock.tool_use "Bash" "t3" { command := some "pwd" }])] }

/-- The session record parsed from the C10 witness file. -/
def c10WitnessData : ClaudeSessionData :=
  sessionDataOfState "s" "" "p"
    (processLines (toLocalInstant 0) c10WitnessFile.lines initState)

theorem C10_tool_calls_eq_histogram_mass_witness :
    c10WitnessData.total_tool_calls = 3 ∧
    c10WitnessData.total_tool_calls =
      (c10WitnessData.tools_summary.map Prod.snd).sum :=
  ⟨by decide,
    C10_tool_calls_eq_histogram_mass (toLocalInstant 0) "s" "" c10WitnessFile
      c10WitnessData rfl⟩

/-! ### C3 -/

/-- C3 (amended): on a progress entry whose `toolUseID` has no entry in the
Task mapping, the already-flushed turns are untouched and the session-level
sub-agent totals still accumulate the deltas; but the turn-level attribution
is dropped only when no turn is accumulating — an in-progress turn receives
the deltas in its sub-agent counters. -/
theorem C3_unmapped_progress_attribution (tuid : String) (u : Usage)
    (st : ParseState)
    (hmap : st.task_tool_use_ids.lookup tuid = none) :
    (process_progress_entry tuid (.agentAssistant "" (some u)) st).turns =
      st.turns ∧
    (process_progress_entry tuid (.agentAssistant "" (some u))
      st).subagent_input_tokens =
      st.subagent_input_tokens + u.input_tokens ∧
    (process_progress_entry tuid (.agentAssistant "" (some u))
      st).subagent_output_tokens =
      st.subagent_output_tokens + u.output_tokens ∧
    (process_progress_entry tuid (.agentAssistant "" (some u))
      st).subagent_cache_creation_tokens =
      st.subagent_cache_creation_tokens + u.cache_creation_input_tokens ∧
    (st.current_turn = none →
      (process_progress_entry tuid (.agentAssistant "" (some u))
        st).current_turn = none) ∧
    (∀ a, st.current_turn = some a →
      (process_progress_entry tuid (.agentAssistant "" (some u))
        st).current_turn = some
        { a with
          subagent_input_tokens := a.subagent_input_tokens + u.input_tokens,
          subagent_output_tokens := a.subagent_output_tokens + u.output_tokens,
          subagent_cache_creation_tokens :=
            a.subagent_cache_creation_tokens +
              u.cache_creation_input_tokens }) := by
  have hred : process_progress_entry tuid (.agentAssistant "" (some u)) st =
      progressAddToCurrentTurn u.input_tokens u.output_tokens
        u.cache_creation_input_tokens
        { st with
          subagent_input_tokens := st.subagent_input_tokens + u.input_tokens,
          subagent_output_tokens :=
            st.subagent_output_tokens + u.output_tokens,
          subagent_cache_creation_tokens :=
            st.subagent_cache_creation_tokens +
              u.cache_creation_input_tokens } := by
    simp only [process_progress_entry, subagentDelta, subagentAccumulate,
      subagentAttribute]
    simp only [ne_eq, not_true_eq_false, if_false, ite_false]
    simp [hmap]
  rw [hred]
  unfold progressAddToCurrentTurn
  cases hcur : st.current_turn with
  | none =>
    exact ⟨rfl, rfl, rfl, rfl, fun _ => rfl, fun a ha => by cases ha⟩
  | some a =>
    refine ⟨rfl, rfl, rfl, rfl, ?_, ?_⟩
    · intro hh
      cases hh
    · intro a2 ha
      cases ha
      rfl

/-- The usage snapshot used by the C3 witness and counterexample. -/
def c3u : Usage :=
  { input_tokens := 7, output_tokens := 3, cache_creation_input_tokens := 2 }

/-- The emitted sub-agent turn tokens of the C3 counterexample. -/
def c3tt : TurnTokens :=
  { input_tokens := 7, output_tokens := 3, cache_creation_tokens := 2 }

theorem C3_unmapped_progress_attribution_witness :
    initState.task_tool_use_ids.lookup "zzz" = none ∧
    ((process_progress_entry "zzz" (.agentAssistant "" (some c3u))
        initState).turns = initState.turns ∧
    (process_progress_entry "zzz" (.agentAssistant "" (some c3u))
        initState).subagent_input_tokens =
      initState.subagent_input_tokens + c3u.input_tokens ∧
    (process_progress_entry "zzz" (.agentAssistant "" (some c3u))
        initState).subagent_output_tokens =
      initState.subagent_output_tokens + c3u.output_tokens ∧
    (process_progress_entry "zzz" (.agentAssistant "" (some c3u))
        initState).subagent_cache_creation_tokens =
      initState.subagent_cache_creation_tokens +
        c3u.cache_creation_input_tokens ∧
    (initState.current_turn = none →
      (process_progress_entry "zzz" (.agentAssistant "" (some c3u))
        initState).current_turn = none) ∧
    (∀ a, initState.current_turn = some a →
      (process_progress_entry "zzz" (.agentAssistant "" (some c3u))
        initState).current_turn = some
        { a with
          subagent_input_tokens :=
            a.subagent_input_tokens + c3u.input_tokens,
          subagent_output_tokens :=
            a.subagent_output_tokens + c3u.output_tokens,
          subagent_cache_creation_tokens :=
            a.subagent_cache_creation_tokens +
              c3u.cache_creation_input_tokens })) :=
  ⟨rfl, C3_unmapped_progress_attribution "zzz" c3u initState rfl⟩

/-- The C3 counterexample session: a user prompt starts a turn, then an
`agent_progress` entry arrives whose `toolUseID` was never recorded by any
Task invocation. -/
def c3CounterFile : SessionFile :=
  { encodedName := "p",
    lines := [some (mkUserPrompt (some 0) "hi"),
      some (mkProgress "zzz" "sm" c3u)] }

/-- C3 (counterexample to the claim as stated): the unattributable sub-agent
tokens are not dropped from turn-level accounting — the in-progress turn's
sub-agent counters receive them, so the emitted turn carries sub-agent
tokens `(7, 3, 0, 2)` instead of none. -/
theorem C3_counterexample :
    (read_session (toLocalInstant 0) "s" "" (some c3CounterFile)).map
      (fun d => (d.conversation.map (fun t => t.subagent_tokens),
        d.subagent_input_tokens)) =
      Except.ok ([some c3tt], (7 : Int)) ∧
    some c3tt ≠ none := by
  exact ⟨rfl, by decide⟩
/-! ### Step-effect lemmas for the dedup, orphan and context-window claims -/

/-- The input-side token count of a single API call (`input + cache_read +
cache_creation`), the value recorded as a turn's context window. -/
def inputSide (u : Usage) : Int :=
  u.input_tokens + u.cache_read_input_tokens + u.cache_creation_input_tokens

theorem recordTimeBranch_frame (loc : Nat → Nat) (e : Entry)
    (st : ParseState) :
    (recordTimeBranch loc e st).input_tokens = st.input_tokens ∧
    (recordTimeBranch loc e st).output_tokens = st.output_tokens ∧
    (recordTimeBranch loc e st).cache_read_tokens = st.cache_read_tokens ∧
    (recordTimeBranch loc e st).cache_creation_tokens =
      st.cache_creation_tokens ∧
    (recordTimeBranch loc e st).seen_msg_ids = st.seen_msg_ids ∧
    (recordTimeBranch loc e st).current_turn = st.current_turn ∧
    (recordTimeBranch loc e st).subagent_input_tokens =
      st.subagent_input_tokens ∧
    (recordTimeBranch loc e st).subagent_output_tokens =
      st.subagent_output_tokens ∧
    (recordTimeBranch loc e st).subagent_cache_creation_tokens =
      st.subagent_cache_creation_tokens ∧
    (recordTimeBranch loc e st).seen_subagent_msg_ids =
      st.seen_subagent_msg_ids ∧
    (recordTimeBranch loc e st).task_tool_use_ids = st.task_tool_use_ids ∧
    (recordTimeBranch loc e st).turns = st.turns ∧
    (recordTimeBranch loc e st).orphan_drained = st.orphan_drained ∧
    (recordTimeBranch loc e st).orphan_input_tokens =
      st.orphan_input_tokens ∧
    (recordTimeBranch loc e st).orphan_output_tokens =
      st.orphan_output_tokens ∧
    (recordTimeBranch loc e st).orphan_cache_read_tokens =
      st.orphan_cache_read_tokens ∧
    (recordTimeBranch loc e st).orphan_cache_creation_tokens =
      st.orphan_cache_creation_tokens ∧
    (recordTimeBranch loc e st).total_user_messages =
      st.total_user_messages := by
  unfold recordTimeBranch
  cases e.timestamp <;> dsimp only <;> repeat' split
  all_goals
    exact ⟨rfl, rfl, rfl, rfl, rfl, rfl, rfl, rfl, rfl, rfl, rfl, rfl, rfl,
      rfl, rfl, rfl, rfl, rfl⟩

/-- `process_entry` on an assistant entry is the assistant handler after the
timestamp/branch prelude. -/
theorem process_entry_assistant (loc : Nat → Nat) (ts : Option Nat)
    (gb : Option String) (msg? : Option AssistantMessage) (st : ParseState) :
    process_entry loc ⟨ts, gb, .assistant msg?⟩ st =
      process_assistant_entry msg?
        (recordTimeBranch loc ⟨ts, gb, .assistant msg?⟩ st) := by
  unfold process_entry
  rw [if_neg (by simp)]

/-- `process_entry` on a progress entry is the progress handler after the
timestamp/branch prelude. -/
theorem process_entry_progress (loc : Nat → Nat) (ts : Option Nat)
    (gb : Option String) (tuid : String) (data : ProgressPayload)
    (st : ParseState) :
    process_entry loc ⟨ts, gb, .progress tuid data⟩ st =
      process_progress_entry tuid data
        (recordTimeBranch loc ⟨ts, gb, .progress tuid data⟩ st) := by
  unfold process_entry
  rw [if_neg (by simp)]

theorem setModelIfAbsent_none (st : ParseState) :
    setModelIfAbsent none st = st := by
  unfold setModelIfAbsent
  split <;> rfl

/-- An assistant entry carrying only a usage snapshot reduces to the usage
step on the state with the assistant-message counter bumped. -/
theorem process_assistant_entry_usageOnly (i : String) (u : Usage)
    (st : ParseState) :
    process_assistant_entry (some { usage := some u, id := i }) st =
      applyAssistantUsage i (some u)
        { st with total_assistant_messages :=
            st.total_assistant_messages + 1 } := by
  unfold process_assistant_entry
  dsimp only
  rw [setModelIfAbsent_none]

/-- Full effect of the token-usage step of one assistant entry: session
counters advance by the dedup delta, the dedup table records the snapshot
(when a stream id is present), and the delta lands in the current turn
(recording the raw input-side size as context window when positive) or in
the orphan bucket. -/
theorem applyAssistantUsage_effect (i : String) (u : Usage)
    (st : ParseState) :
    (applyAssistantUsage i (some u) st).input_tokens =
      st.input_tokens + (usageDelta i u st.seen_msg_ids).input_tokens ∧
    (applyAssistantUsage i (some u) st).output_tokens =
      st.output_tokens + (usageDelta i u st.seen_msg_ids).output_tokens ∧
    (applyAssistantUsage i (some u) st).cache_read_tokens =
      st.cache_read_tokens +
        (usageDelta i u st.seen_msg_ids).cache_read_input_tokens ∧
    (applyAssistantUsage i (some u) st).cache_creation_tokens =
      st.cache_creation_tokens +
        (usageDelta i u st.seen_msg_ids).cache_creation_input_tokens ∧
    (applyAssistantUsage i (some u) st).seen_msg_ids =
      (if i ≠ "" then dictInsert st.seen_msg_ids i u
       else st.seen_msg_ids) ∧
    (applyAssistantUsage i (some u) st).turns = st.turns ∧
    (applyAssistantUsage i (some u) st).orphan_drained = st.orphan_drained ∧
    (applyAssistantUsage i (some u) st).subagent_input_tokens =
      st.subagent_input_tokens ∧
    (applyAssistantUsage i (some u) st).subagent_output_tokens =
      st.subagent_output_tokens ∧
    (applyAssistantUsage i (some u) st).subagent_cache_creation_tokens =
      st.subagent_cache_creation_tokens ∧
    (applyAssistantUsage i (some u) st).seen_subagent_msg_ids =
      st.seen_subagent_msg_ids ∧
    (applyAssistantUsage i (some u) st).task_tool_use_ids =
      st.task_tool_use_ids ∧
    (applyAssistantUsage i (some u) st).total_user_messages =
      st.total_user_messages ∧
    (st.current_turn = none →
      (applyAssistantUsage i (some u) st).current_turn = none ∧
      (applyAssistantUsage i (some u) st).orphan_input_tokens =
        st.orphan_input_tokens + (usageDelta i u st.seen_msg_ids).input_tokens ∧
      (applyAssistantUsage i (some u) st).orphan_output_tokens =
        st.orphan_output_tokens +
          (usageDelta i u st.seen_msg_ids).output_tokens ∧
      (applyAssistantUsage i (some u) st).orphan_cache_read_tokens =
        st.orphan_cache_read_tokens +
          (usageDelta i u st.seen_msg_ids).cache_read_input_tokens ∧
      (applyAssistantUsage i (some u) st).orphan_cache_creation_tokens =
        st.orphan_cache_creation_tokens +
          (usageDelta i u st.seen_msg_ids).cache_creation_input_tokens) ∧
    (∀ a, st.current_turn = some a →
      (∃ a2, (applyAssistantUsage i (some u) st).current_turn = some a2 ∧
        a2.input_tokens =
          a.input_tokens + (usageDelta i u st.seen_msg_ids).input_tokens ∧
        a2.output_tokens =
          a.output_tokens + (usageDelta i u st.seen_msg_ids).output_tokens ∧
        a2.cache_read_tokens = a.cache_read_tokens +
          (usageDelta i u st.seen_msg_ids).cache_read_input_tokens ∧
        a2.cache_creation_tokens = a.cache_creation_tokens +
          (usageDelta i u st.seen_msg_ids).cache_creation_input_tokens ∧
        a2.context_window =
          (if inputSide u > 0 then inputSide u else a.context_window)) ∧
      (applyAssistantUsage i (some u) st).orphan_input_tokens =
        st.orphan_input_tokens ∧
      (applyAssistantUsage i (some u) st).orphan_output_tokens =
        st.orphan_output_tokens ∧
      (applyAssistantUsage i (some u) st).orphan_cache_read_tokens =
        st.orphan_cache_read_tokens ∧
      (applyAssistantUsage i (some u) st).orphan_cache_creation_tokens =
        st.orphan_cache_creation_tokens) := by
  unfold applyAssistantUsage
  dsimp only
  by_cases hm : i ≠ ""
  · rw [if_pos hm]
    cases hcur : st.current_turn with
    | some a =>
      rw [if_pos hm]
      refine ⟨rfl, rfl, rfl, rfl, rfl, rfl, rfl, rfl, rfl, rfl, rfl, rfl, rfl,
        ?_, ?_⟩
      · intro hh
        cases hh
      intro a1 ha
      cases ha
      refine ⟨⟨_, rfl, ?_, ?_, ?_, ?_, ?_⟩, rfl, rfl, rfl, rfl⟩
      · split <;> rfl
      · split <;> rfl
      · split <;> rfl
      · split <;> rfl
      · simp only [inputSide]
        split <;> rfl
    | none =>
      rw [if_pos hm]
      exact ⟨rfl, rfl, rfl, rfl, rfl, rfl, rfl, rfl, rfl, rfl, rfl, rfl, rfl,
        fun _ => ⟨rfl, rfl, rfl, rfl, rfl⟩, fun a ha => by cases ha⟩
  · rw [if_neg hm]
    cases hcur : st.current_turn with
    | some a =>
      rw [if_neg hm]
      refine ⟨rfl, rfl, rfl, rfl, rfl, rfl, rfl, rfl, rfl, rfl, rfl, rfl, rfl,
        ?_, ?_⟩
      · intro hh
        cases hh
      intro a1 ha
      cases ha
      refine ⟨⟨_, rfl, ?_, ?_, ?_, ?_, ?_⟩, rfl, rfl, rfl, rfl⟩
      · split <;> rfl
      · split <;> rfl
      · split <;> rfl
      · split <;> rfl
      · simp only [inputSide]
        split <;> rfl
    | none =>
      rw [if_neg hm]
      exact ⟨rfl, rfl, rfl, rfl, rfl, rfl, rfl, rfl, rfl, rfl, rfl, rfl, rfl,
        fun _ => ⟨rfl, rfl, rfl, rfl, rfl⟩, fun a ha => by cases ha⟩

/-- Effect of one usage-only assistant entry at the `process_entry` level:
the timestamp/branch prelude and message counting leave all token state
untouched, so the entry behaves exactly as its usage step. -/
theorem asst_entry_effect (loc : Nat → Nat) (ts : Option Nat) (i : String)
    (u : Usage) (st : ParseState) :
    (process_entry loc (mkAssistantUsage ts i u) st).input_tokens =
      st.input_tokens + (usageDelta i u st.seen_msg_ids).input_tokens ∧
    (process_entry loc (mkAssistantUsage ts i u) st).output_tokens =
      st.output_tokens + (usageDelta i u st.seen_msg_ids).output_tokens ∧
    (process_entry loc (mkAssistantUsage ts i u) st).cache_read_tokens =
      st.cache_read_tokens +
        (usageDelta i u st.seen_msg_ids).cache_read_input_tokens ∧
    (process_entry loc (mkAssistantUsage ts i u) st).cache_creation_tokens =
      st.cache_creation_tokens +
        (usageDelta i u st.seen_msg_ids).cache_creation_input_tokens ∧
    (process_entry loc (mkAssistantUsage ts i u) st).seen_msg_ids =
      (if i ≠ "" then dictInsert st.seen_msg_ids i u
       else st.seen_msg_ids) ∧
    (process_entry loc (mkAssistantUsage ts i u) st).turns = st.turns ∧
    (process_entry loc (mkAssistantUsage ts i u) st).orphan_drained =
      st.orphan_drained ∧
    (process_entry loc (mkAssistantUsage ts i u) st).subagent_input_tokens =
      st.subagent_input_tokens ∧
    (process_entry loc (mkAssistantUsage ts i u) st).subagent_output_tokens =
      st.subagent_output_tokens ∧
    (process_entry loc (mkAssistantUsage ts i u)
        st).subagent_cache_creation_tokens =
      st.subagent_cache_creation_tokens ∧
    (process_entry loc (mkAssistantUsage ts i u) st).seen_subagent_msg_ids =
      st.seen_subagent_msg_ids ∧
    (process_entry loc (mkAssistantUsage ts i u) st).task_tool_use_ids =
      st.task_tool_use_ids ∧
    (process_entry loc (mkAssistantUsage ts i u) st).total_user_messages =
      st.total_user_messages ∧
    (st.current_turn = none →
      (process_entry loc (mkAssistantUsage ts i u) st).current_turn = none ∧
      (process_entry loc (mkAssistantUsage ts i u) st).orphan_input_tokens =
        st.orphan_input_tokens +
          (usageDelta i u st.seen_msg_ids).input_tokens ∧
      (process_entry loc (mkAssistantUsage ts i u) st).orphan_output_tokens =
        st.orphan_output_tokens +
          (usageDelta i u st.seen_msg_ids).output_tokens ∧
      (process_entry loc (mkAssistantUsage ts i u)
          st).orphan_cache_read_tokens =
        st.orphan_cache_read_tokens +
          (usageDelta i u st.seen_msg_ids).cache_read_input_tokens ∧
      (process_entry loc (mkAssistantUsage ts i u)
          st).orphan_cache_creation_tokens =
        st.orphan_cache_creation_tokens +
          (usageDelta i u st.seen_msg_ids).cache_creation_input_tokens) ∧
    (∀ a, st.current_turn = some a →
      (∃ a2, (process_entry loc (mkAssistantUsage ts i u) st).current_turn =
          some a2 ∧
        a2.input_tokens =
          a.input_tokens + (usageDelta i u st.seen_msg_ids).input_tokens ∧
        a2.output_tokens =
          a.output_tokens + (usageDelta i u st.seen_msg_ids).output_tokens ∧
        a2.cache_read_tokens = a.cache_read_tokens +
          (usageDelta i u st.seen_msg_ids).cache_read_input_tokens ∧
        a2.cache_creation_tokens = a.cache_creation_tokens +
          (usageDelta i u st.seen_msg_ids).cache_creation_input_tokens ∧
        a2.context_window =
          (if inputSide u > 0 then inputSide u else a.context_window)) ∧
      (process_entry loc (mkAssistantUsage ts i u) st).orphan_input_tokens =
        st.orphan_input_tokens ∧
      (process_entry loc (mkAssistantUsage ts i u) st).orphan_output_tokens =
        st.orphan_output_tokens ∧
      (process_entry loc (mkAssistantUsage ts i u)
          st).orphan_cache_read_tokens = st.orphan_cache_read_tokens ∧
      (process_entry loc (mkAssistantUsage ts i u)
          st).orphan_cache_creation_tokens =
        st.orphan_cache_creation_tokens) := by
  have hkey : process_entry loc (mkAssistantUsage ts i u) st =
      applyAssistantUsage i (some u)
        { recordTimeBranch loc (mkAssistantUsage ts i u) st with
          total_assistant_messages :=
            (recordTimeBranch loc (mkAssistantUsage ts i u)
              st).total_assistant_messages + 1 } := by
    show process_entry loc
        ⟨ts, none, .assistant (some { usage := some u, id := i })⟩ st = _
    rw [process_entry_assistant, process_assistant_entry_usageOnly]
    rfl
  obtain ⟨f1, f2, f3, f4, f5, f6, f7, f8, f9, f10, f11, f12, f13, f14, f15,
    f16, f17, f18⟩ := recordTimeBranch_frame loc (mkAssistantUsage ts i u) st
  obtain ⟨g1, g2, g3, g4, g5, g6, g7, g8, g9, g10, g11, g12, g13, g14, g15⟩ :=
    applyAssistantUsage_effect i u
      { recordTimeBranch loc (mkAssistantUsage ts i u) st with
        total_assistant_messages :=
          (recordTimeBranch loc (mkAssistantUsage ts i u)
            st).total_assistant_messages + 1 }
  rw [hkey]
  refine ⟨?_, ?_, ?_, ?_, ?_, ?_, ?_, ?_, ?_, ?_, ?_, ?_, ?_, ?_, ?_⟩
  · rw [g1]; dsimp only; rw [f1, f5]
  · rw [g2]; dsimp only; rw [f2, f5]
  · rw [g3]; dsimp only; rw [f3, f5]
  · rw [g4]; dsimp only; rw [f4, f5]
  · rw [g5]; dsimp only; rw [f5]
  · rw [g6]; dsimp only; rw [f12]
  · rw [g7]; dsimp only; rw [f13]
  · rw [g8]; dsimp only; rw [f7]
  · rw [g9]; dsimp only; rw [f8]
  · rw [g10]; dsimp only; rw [f9]
  · rw [g11]; dsimp only; rw [f10]
  · rw [g12]; dsimp only; rw [f11]
  · rw [g13]; dsimp only; rw [f18]
  · intro hc
    have hcB : (recordTimeBranch loc (mkAssistantUsage ts i u)
        st).current_turn = none := by rw [f6]; exact hc
    obtain ⟨k1, k2, k3, k4, k5⟩ := g14 hcB
    refine ⟨k1, ?_, ?_, ?_, ?_⟩
    · rw [k2]; dsimp only; rw [f14, f5]
    · rw [k3]; dsimp only; rw [f15, f5]
    · rw [k4]; dsimp only; rw [f16, f5]
    · rw [k5]; dsimp only; rw [f17, f5]
  · intro a hc
    have hcB : (recordTimeBranch loc (mkAssistantUsage ts i u)
        st).current_turn = some a := by rw [f6]; exact hc
    obtain ⟨⟨a2, j0, j1, j2, j3, j4, j5⟩, k2, k3, k4, k5⟩ := g15 a hcB
    refine ⟨⟨a2, j0, ?_, ?_, ?_, ?_, j5⟩, ?_, ?_, ?_, ?_⟩
    · rw [j1]; dsimp only; rw [f5]
    · rw [j2]; dsimp only; rw [f5]
    · rw [j3]; dsimp only; rw [f5]
    · rw [j4]; dsimp only; rw [f5]
    · rw [k2]; dsimp only; rw [f14]
    · rw [k3]; dsimp only; rw [f15]
    · rw [k4]; dsimp only; rw [f16]
    · rw [k5]; dsimp only; rw [f17]

theorem usageDelta_no_id (u : Usage) (seen : List (String × Usage)) :
    usageDelta "" u seen = u := rfl

theorem getLast?_cons_eq_some {α : Type} (w : α) (ws : List α) :
    (w :: ws).getLast? = some ((ws.getLast?).getD w) := by
  induction ws generalizing w with
  | nil => rfl
  | cons x xs ih =>
    rw [List.getLast?_cons_cons, ih x]
    rfl

theorem getLast?_getD_cons {α : Type} (v : α) (vs : List α) (u : α) :
    ((v :: vs).getLast?).getD u = (vs.getLast?).getD v := by
  rw [getLast?_cons_eq_some]
  rfl

/-- Running a sequence of cumulative snapshots that share one stream id: the
final contribution to every session counter telescopes to the last snapshot
minus whatever snapshot was previously stored for that id. -/
theorem run_same_id (loc : Nat → Nat) (ts : Option Nat) (i : String)
    (hi : i ≠ "") :
    ∀ (us : List Usage) (u : Usage) (st : ParseState),
    (processLines loc ((u :: us).map
        (fun v => some (mkAssistantUsage ts i v))) st).input_tokens =
      st.input_tokens + ((us.getLast?).getD u).input_tokens -
        (lookupD st.seen_msg_ids i {}).input_tokens ∧
    (processLines loc ((u :: us).map
        (fun v => some (mkAssistantUsage ts i v))) st).output_tokens =
      st.output_tokens + ((us.getLast?).getD u).output_tokens -
        (lookupD st.seen_msg_ids i {}).output_tokens ∧
    (processLines loc ((u :: us).map
        (fun v => some (mkAssistantUsage ts i v))) st).cache_read_tokens =
      st.cache_read_tokens + ((us.getLast?).getD u).cache_read_input_tokens -
        (lookupD st.seen_msg_ids i {}).cache_read_input_tokens ∧
    (processLines loc ((u :: us).map
        (fun v => some (mkAssistantUsage ts i v))) st).cache_creation_tokens =
      st.cache_creation_tokens +
        ((us.getLast?).getD u).cache_creation_input_tokens -
        (lookupD st.seen_msg_ids i {}).cache_creation_input_tokens := by
  intro us
  induction us with
  | nil =>
    intro u st
    obtain ⟨g1, g2, g3, g4, -⟩ := asst_entry_effect loc ts i u st
    have hpl : processLines loc ([u].map
        (fun v => some (mkAssistantUsage ts i v))) st =
        process_entry loc (mkAssistantUsage ts i u) st := rfl
    rw [hpl]
    unfold usageDelta at g1 g2 g3 g4
    rw [if_pos hi] at g1 g2 g3 g4
    unfold lookupD
    cases hp : st.seen_msg_ids.lookup i <;>
      rw [hp] at g1 g2 g3 g4 <;>
      (try dsimp only at g1 g2 g3 g4) <;>
      refine ⟨?_, ?_, ?_, ?_⟩ <;>
      simp only [hp, g1, g2, g3, g4, List.getLast?_nil, Option.getD_none] <;>
      (try simp) <;> omega
  | cons v vs ih =>
    intro u st
    have hpl : processLines loc ((u :: v :: vs).map
        (fun w => some (mkAssistantUsage ts i w))) st =
        processLines loc ((v :: vs).map
          (fun w => some (mkAssistantUsage ts i w)))
          (process_entry loc (mkAssistantUsage ts i u) st) := rfl
    rw [hpl]
    obtain ⟨e1, e2, e3, e4⟩ := ih v (process_entry loc (mkAssistantUsage ts i u) st)
    obtain ⟨g1, g2, g3, g4, g5, -⟩ := asst_entry_effect loc ts i u st
    rw [if_pos hi] at g5
    have hlook : lookupD (process_entry loc
        (mkAssistantUsage ts i u) st).seen_msg_ids i {} = u := by
      unfold lookupD
      rw [g5, lookup_dictInsert]
      simp
    rw [e1, e2, e3, e4, hlook, g1, g2, g3, g4,
      getLast?_getD_cons v vs u]
    unfold usageDelta
    rw [if_pos hi]
    unfold lookupD
    cases hp : st.seen_msg_ids.lookup i <;> dsimp only <;>
      refine ⟨?_, ?_, ?_, ?_⟩ <;> (try simp) <;> omega

/-- Snapshots without a stream id are never deduplicated: each contributes
its full values. -/
theorem run_no_id (loc : Nat → Nat) (ts : Option Nat) :
    ∀ (us : List Usage) (st : ParseState),
    (processLines loc (us.map
        (fun v => some (mkAssistantUsage ts "" v))) st).input_tokens =
      st.input_tokens + (us.map (fun v => v.input_tokens)).sum ∧
    (processLines loc (us.map
        (fun v => some (mkAssistantUsage ts "" v))) st).output_tokens =
      st.output_tokens + (us.map (fun v => v.output_tokens)).sum ∧
    (processLines loc (us.map
        (fun v => some (mkAssistantUsage ts "" v))) st).cache_read_tokens =
      st.cache_read_tokens +
        (us.map (fun v => v.cache_read_input_tokens)).sum ∧
    (processLines loc (us.map
        (fun v => some (mkAssistantUsage ts "" v))) st).cache_creation_tokens =
      st.cache_creation_tokens +
        (us.map (fun v => v.cache_creation_input_tokens)).sum := by
  intro us
  induction us with
  | nil =>
    exact fun st => ⟨by simp [processLines], by simp [processLines],
      by simp [processLines], by simp [processLines]⟩
  | cons u vs ih =>
    intro st
    have hpl : processLines loc ((u :: vs).map
        (fun w => some (mkAssistantUsage ts "" w))) st =
        processLines loc (vs.map (fun w => some (mkAssistantUsage ts "" w)))
          (process_entry loc (mkAssistantUsage ts "" u) st) := rfl
    rw [hpl]
    obtain ⟨e1, e2, e3, e4⟩ :=
      ih (process_entry loc (mkAssistantUsage ts "" u) st)
    obtain ⟨g1, g2, g3, g4, -⟩ := asst_entry_effect loc ts "" u st
    rw [usageDelta_no_id] at g1 g2 g3 g4
    rw [e1, e2, e3, e4, g1, g2, g3, g4]
    refine ⟨?_, ?_, ?_, ?_⟩ <;> simp <;> omega

theorem progressAddToCurrentTurn_frame (a b c : Int) (st : ParseState) :
    (progressAddToCurrentTurn a b c st).subagent_input_tokens =
      st.subagent_input_tokens ∧
    (progressAddToCurrentTurn a b c st).subagent_output_tokens =
      st.subagent_output_tokens ∧
    (progressAddToCurrentTurn a b c st).subagent_cache_creation_tokens =
      st.subagent_cache_creation_tokens ∧
    (progressAddToCurrentTurn a b c st).seen_subagent_msg_ids =
      st.seen_subagent_msg_ids := by
  unfold progressAddToCurrentTurn
  split <;> exact ⟨rfl, rfl, rfl, rfl⟩

theorem subagentAttribute_frame (tid : String) (d : Int × Int × Int)
    (st : ParseState) :
    (subagentAttribute tid d st).subagent_input_tokens =
      st.subagent_input_tokens ∧
    (subagentAttribute tid d st).subagent_output_tokens =
      st.subagent_output_tokens ∧
    (subagentAttribute tid d st).subagent_cache_creation_tokens =
      st.subagent_cache_creation_tokens ∧
    (subagentAttribute tid d st).seen_subagent_msg_ids =
      st.seen_subagent_msg_ids := by
  unfold subagentAttribute
  cases hl : st.task_tool_use_ids.lookup tid with
  | none => exact progressAddToCurrentTurn_frame d.1 d.2.1 d.2.2 st
  | some idx =>
    dsimp only
    split
    · exact ⟨rfl, rfl, rfl, rfl⟩
    · exact progressAddToCurrentTurn_frame d.1 d.2.1 d.2.2 st

/-- Effect of one progress entry at the `process_entry` level on the
session-level sub-agent counters and dedup table. -/
theorem prog_entry_effect (loc : Nat → Nat) (tuid i : String) (u : Usage)
    (st : ParseState) :
    (process_entry loc (mkProgress tuid i u) st).subagent_input_tokens =
      st.subagent_input_tokens +
        (subagentDelta i u st.seen_subagent_msg_ids).1 ∧
    (process_entry loc (mkProgress tuid i u) st).subagent_output_tokens =
      st.subagent_output_tokens +
        (subagentDelta i u st.seen_subagent_msg_ids).2.1 ∧
    (process_entry loc (mkProgress tuid i u)
        st).subagent_cache_creation_tokens =
      st.subagent_cache_creation_tokens +
        (subagentDelta i u st.seen_subagent_msg_ids).2.2 ∧
    (process_entry loc (mkProgress tuid i u) st).seen_subagent_msg_ids =
      (if i ≠ "" then dictInsert st.seen_subagent_msg_ids i u
       else st.seen_subagent_msg_ids) := by
  have hkey : process_entry loc (mkProgress tuid i u) st =
      process_progress_entry tuid (.agentAssistant i (some u))
        (recordTimeBranch loc (mkProgress tuid i u) st) := by
    show process_entry loc ⟨none, none, .progress tuid
      (.agentAssistant i (some u))⟩ st = _
    rw [process_entry_progress]
    rfl
  obtain ⟨f1, f2, f3, f4, f5, f6, f7, f8, f9, f10, f11, f12, f13, f14, f15,
    f16, f17, f18⟩ := recordTimeBranch_frame loc (mkProgress tuid i u) st
  rw [hkey]
  simp only [process_progress_entry]
  obtain ⟨a1, a2, a3, a4⟩ := subagentAttribute_frame tuid
    (subagentDelta i u (recordTimeBranch loc (mkProgress tuid i u)
      st).seen_subagent_msg_ids)
    (subagentAccumulate i u
      (subagentDelta i u (recordTimeBranch loc (mkProgress tuid i u)
        st).seen_subagent_msg_ids)
      (recordTimeBranch loc (mkProgress tuid i u) st))
  rw [a1, a2, a3, a4, f10]
  unfold subagentAccumulate
  dsimp only
  by_cases hm : i ≠ ""
  · rw [if_pos hm, if_pos hm]
    rw [f7, f8, f9, f10]
    exact ⟨rfl, rfl, rfl, rfl⟩
  · rw [if_neg hm, if_neg hm]
    rw [f7, f8, f9, f10]
    exact ⟨rfl, rfl, rfl, rfl⟩

theorem subagentDelta_no_id (u : Usage) (seen : List (String × Usage)) :
    subagentDelta "" u seen =
      (u.input_tokens, u.output_tokens, u.cache_creation_input_tokens) := rfl

/-- Sub-agent analogue of `run_same_id`: cumulative snapshots sharing one
sub-agent stream id telescope to the last snapshot. -/
theorem run_sub_same_id (loc : Nat → Nat) (tuid i : String) (hi : i ≠ "") :
    ∀ (us : List Usage) (u : Usage) (st : ParseState),
    (processLines loc ((u :: us).map
        (fun v => some (mkProgress tuid i v))) st).subagent_input_tokens =
      st.subagent_input_tokens + ((us.getLast?).getD u).input_tokens -
        (lookupD st.seen_subagent_msg_ids i {}).input_tokens ∧
    (processLines loc ((u :: us).map
        (fun v => some (mkProgress tuid i v))) st).subagent_output_tokens =
      st.subagent_output_tokens + ((us.getLast?).getD u).output_tokens -
        (lookupD st.seen_subagent_msg_ids i {}).output_tokens ∧
    (processLines loc ((u :: us).map
        (fun v => some (mkProgress tuid i v))) st).subagent_cache_creation_tokens =
      st.subagent_cache_creation_tokens +
        ((us.getLast?).getD u).cache_creation_input_tokens -
        (lookupD st.seen_subagent_msg_ids i {}).cache_creation_input_tokens := by
  intro us
  induction us with
  | nil =>
    intro u st
    obtain ⟨g1, g2, g3, -⟩ := prog_entry_effect loc tuid i u st
    have hpl : processLines loc ([u].map
        (fun v => some (mkProgress tuid i v))) st =
        process_entry loc (mkProgress tuid i u) st := rfl
    rw [hpl]
    unfold subagentDelta at g1 g2 g3
    rw [if_pos hi] at g1 g2 g3
    unfold lookupD
    cases hp : st.seen_subagent_msg_ids.lookup i <;>
      rw [hp] at g1 g2 g3 <;>
      (try dsimp only at g1 g2 g3) <;>
      refine ⟨?_, ?_, ?_⟩ <;>
      simp only [hp, g1, g2, g3, List.getLast?_nil, Option.getD_none] <;>
      (try simp) <;> omega
  | cons v vs ih =>
    intro u st
    have hpl : processLines loc ((u :: v :: vs).map
        (fun w => some (mkProgress tuid i w))) st =
        processLines loc ((v :: vs).map (fun w => some (mkProgress tuid i w)))
          (process_entry loc (mkProgress tuid i u) st) := rfl
    rw [hpl]
    obtain ⟨e1, e2, e3⟩ := ih v (process_entry loc (mkProgress tuid i u) st)
    obtain ⟨g1, g2, g3, g4⟩ := prog_entry_effect loc tuid i u st
    rw [if_pos hi] at g4
    have hlook : lookupD (process_entry loc
        (mkProgress tuid i u) st).seen_subagent_msg_ids i {} = u := by
      unfold lookupD
      rw [g4, lookup_dictInsert]
      simp
    rw [e1, e2, e3, hlook, g1, g2, g3, getLast?_getD_cons v vs u]
    unfold subagentDelta
    rw [if_pos hi]
    unfold lookupD
    cases hp : st.seen_subagent_msg_ids.lookup i <;> dsimp only <;>
      refine ⟨?_, ?_, ?_⟩ <;> (try simp) <;> omega

/-- Sub-agent snapshots without a stream id each contribute fully. -/
theorem run_sub_no_id (loc : Nat → Nat) (tuid : String) :
    ∀ (us : List Usage) (st : ParseState),
    (processLines loc (us.map
        (fun v => some (mkProgress tuid "" v))) st).subagent_input_tokens =
      st.subagent_input_tokens + (us.map (fun v => v.input_tokens)).sum ∧
    (processLines loc (us.map
        (fun v => some (mkProgress tuid "" v))) st).subagent_output_tokens =
      st.subagent_output_tokens + (us.map (fun v => v.output_tokens)).sum ∧
    (processLines loc (us.map
        (fun v => some (mkProgress tuid "" v))) st).subagent_cache_creation_tokens =
      st.subagent_cache_creation_tokens +
        (us.map (fun v => v.cache_creation_input_tokens)).sum := by
  intro us
  induction us with
  | nil =>
    exact fun st => ⟨by simp [processLines], by simp [processLines],
      by simp [processLines]⟩
  | cons u vs ih =>
    intro st
    have hpl : processLines loc ((u :: vs).map
        (fun w => some (mkProgress tuid "" w))) st =
        processLines loc (vs.map (fun w => some (mkProgress tuid "" w)))
          (process_entry loc (mkProgress tuid "" u) st) := rfl
    rw [hpl]
    obtain ⟨e1, e2, e3⟩ := ih (process_entry loc (mkProgress tuid "" u) st)
    obtain ⟨g1, g2, g3, -⟩ := prog_entry_effect loc tuid "" u st
    rw [subagentDelta_no_id] at g1 g2 g3
    rw [e1, e2, e3, g1, g2, g3]
    refine ⟨?_, ?_, ?_⟩ <;> (try simp) <;> omega

/-- C2: starting from a state holding no previous snapshot for stream id `i`,
a run of cumulative usage snapshots sharing that id adds exactly the last
snapshot's values to the running session counters (not the sum of all
snapshots), while snapshots carrying no stream id each add their full
values; this holds separately for the primary-message dedup table
(`seen_msg_ids`) and the sub-agent dedup table (`seen_subagent_msg_ids`). -/
theorem C2_dedup_last_snapshot_wins (loc : Nat → Nat) (ts : Option Nat)
    (tuid i : String) (st : ParseState) (hi : i ≠ "")
    (hfresh : st.seen_msg_ids.lookup i = none)
    (hfreshSub : st.seen_subagent_msg_ids.lookup i = none) :
    (∀ (u : Usage) (us : List Usage),
      (processLines loc ((u :: us).map
          (fun v => some (mkAssistantUsage ts i v))) st).input_tokens =
        st.input_tokens + ((us.getLast?).getD u).input_tokens ∧
      (processLines loc ((u :: us).map
          (fun v => some (mkAssistantUsage ts i v))) st).output_tokens =
        st.output_tokens + ((us.getLast?).getD u).output_tokens ∧
      (processLines loc ((u :: us).map
          (fun v => some (mkAssistantUsage ts i v))) st).cache_read_tokens =
        st.cache_read_tokens + ((us.getLast?).getD u).cache_read_input_tokens ∧
      (processLines loc ((u :: us).map
          (fun v => some (mkAssistantUsage ts i v))) st).cache_creation_tokens =
        st.cache_creation_tokens +
          ((us.getLast?).getD u).cache_creation_input_tokens) ∧
    (∀ us : List Usage,
      (processLines loc (us.map
          (fun v => some (mkAssistantUsage ts "" v))) st).input_tokens =
        st.input_tokens + (us.map (fun v => v.input_tokens)).sum ∧
      (processLines loc (us.map
          (fun v => some (mkAssistantUsage ts "" v))) st).output_tokens =
        st.output_tokens + (us.map (fun v => v.output_tokens)).sum ∧
      (processLines loc (us.map
          (fun v => some (mkAssistantUsage ts "" v))) st).cache_read_tokens =
        st.cache_read_tokens +
          (us.map (fun v => v.cache_read_input_tokens)).sum ∧
      (processLines loc (us.map
          (fun v => some (mkAssistantUsage ts "" v))) st).cache_creation_tokens =
        st.cache_creation_tokens +
          (us.map (fun v => v.cache_creation_input_tokens)).sum) ∧
    (∀ (u : Usage) (us : List Usage),
      (processLines loc ((u :: us).map
          (fun v => some (mkProgress tuid i v))) st).subagent_input_tokens =
        st.subagent_input_tokens + ((us.getLast?).getD u).input_tokens ∧
      (processLines loc ((u :: us).map
          (fun v => some (mkProgress tuid i v))) st).subagent_output_tokens =
        st.subagent_output_tokens + ((us.getLast?).getD u).output_tokens ∧
      (processLines loc ((u :: us).map
          (fun v => some (mkProgress tuid i v))) st).subagent_cache_creation_tokens
        = st.subagent_cache_creation_tokens +
          ((us.getLast?).getD u).cache_creation_input_tokens) ∧
    (∀ us : List Usage,
      (processLines loc (us.map
          (fun v => some (mkProgress tuid "" v))) st).subagent_input_tokens =
        st.subagent_input_tokens + (us.map (fun v => v.input_tokens)).sum ∧
      (processLines loc (us.map
          (fun v => some (mkProgress tuid "" v))) st).subagent_output_tokens =
        st.subagent_output_tokens + (us.map (fun v => v.output_tokens)).sum ∧
      (processLines loc (us.map
          (fun v => some (mkProgress tuid "" v))) st).subagent_cache_creation_tokens
        = st.subagent_cache_creation_tokens +
          (us.map (fun v => v.cache_creation_input_tokens)).sum) := by
  have hz : lookupD st.seen_msg_ids i {} = {} := by
    unfold lookupD
    rw [hfresh]
  have hzs : lookupD st.seen_subagent_msg_ids i {} = {} := by
    unfold lookupD
    rw [hfreshSub]
  have z1 : ({} : Usage).input_tokens = 0 := rfl
  have z2 : ({} : Usage).output_tokens = 0 := rfl
  have z3 : ({} : Usage).cache_read_input_tokens = 0 := rfl
  have z4 : ({} : Usage).cache_creation_input_tokens = 0 := rfl
  refine ⟨?_, ?_, ?_, ?_⟩
  · intro u us
    obtain ⟨e1, e2, e3, e4⟩ := run_same_id loc ts i hi us u st
    rw [hz, z1, sub_zero] at e1
    rw [hz, z2, sub_zero] at e2
    rw [hz, z3, sub_zero] at e3
    rw [hz, z4, sub_zero] at e4
    exact ⟨e1, e2, e3, e4⟩
  · intro us
    exact run_no_id loc ts us st
  · intro u us
    obtain ⟨e1, e2, e3⟩ := run_sub_same_id loc tuid i hi us u st
    rw [hzs, z1, sub_zero] at e1
    rw [hzs, z2, sub_zero] at e2
    rw [hzs, z4, sub_zero] at e3
    exact ⟨e1, e2, e3⟩
  · intro us
    exact run_sub_no_id loc tuid us st

theorem C2_dedup_last_snapshot_wins_witness :
    ("msg_01" : String) ≠ "" ∧
    initState.seen_msg_ids.lookup "msg_01" = none ∧
    initState.seen_subagent_msg_ids.lookup "msg_01" = none ∧
    (processLines (toLocalInstant 0)
        ([(⟨100, 10, 0, 0⟩ : Usage), ⟨100, 30, 0, 0⟩, ⟨100, 50, 0, 0⟩].map
          (fun v => some (mkAssistantUsage none "msg_01" v)))
        initState).input_tokens = 100 ∧
    (processLines (toLocalInstant 0)
        ([(⟨100, 10, 0, 0⟩ : Usage), ⟨100, 30, 0, 0⟩, ⟨100, 50, 0, 0⟩].map
          (fun v => some (mkAssistantUsage none "msg_01" v)))
        initState).output_tokens = 50 ∧
    (processLines (toLocalInstant 0)
        ([(⟨7, 1, 0, 2⟩ : Usage), ⟨9, 4, 0, 5⟩].map
          (fun v => some (mkProgress "task1" "msg_01" v)))
        initState).subagent_input_tokens = 9 ∧
    (processLines (toLocalInstant 0)
        ([(⟨7, 1, 0, 2⟩ : Usage), ⟨9, 4, 0, 5⟩].map
          (fun v => some (mkProgress "task1" "msg_01" v)))
        initState).subagent_output_tokens = 4 := by
  have h := C2_dedup_last_snapshot_wins (toLocalInstant 0) none "task1" "msg_01"
    initState (by decide) rfl rfl
  obtain ⟨h1, -, h3, -⟩ := h
  obtain ⟨p1, p2, -, -⟩ := h1 ⟨100, 10, 0, 0⟩ [⟨100, 30, 0, 0⟩, ⟨100, 50, 0, 0⟩]
  obtain ⟨q1, q2, -⟩ := h3 ⟨7, 1, 0, 2⟩ [⟨9, 4, 0, 5⟩]
  refine ⟨by decide, rfl, rfl, ?_, ?_, ?_, ?_⟩
  · rw [p1]; rfl
  · rw [p2]; rfl
  · rw [q1]; rfl
  · rw [q2]; rfl

/-! ### C7 machinery -/

/-- One assistant call's effect on the recorded context window: a positive
input-side count overwrites, zero keeps the previous value. -/
def ctxStep (c : Int) (u : Usage) : Int :=
  if inputSide u > 0 then inputSide u else c

/-- A non-meta user entry with a plain non-blank prompt (no system tag, not
the interrupt marker) flushes the current turn and installs a fresh
accumulator carrying only the localized timestamp and the clipped prompt. -/
theorem user_prompt_step (loc : Nat → Nat) (ts : Option Nat) (s : String)
    (st : ParseState) (h1 : pyStrip s ≠ "") (h2 : hasSystemTag s = false)
    (h3 : pyStrip s ≠ INTERRUPTED_TEXT) :
    process_entry loc (mkUserPrompt ts s) st =
      { flush_turn
          { recordTimeBranch loc (mkUserPrompt ts s) st with
            total_user_messages :=
              (recordTimeBranch loc (mkUserPrompt ts s)
                st).total_user_messages + 1 } with
        current_turn := some { timestamp := ts.map loc,
                               user_prompt := pyTake s MAX_PROMPT_LEN } } := by
  show process_entry loc ⟨ts, none, .user false (some (.str s))⟩ st = _
  unfold process_entry
  rw [if_neg (by simp)]
  show process_user_entry loc ts false (some (.str s))
    (recordTimeBranch loc ⟨ts, none, .user false (some (.str s))⟩ st) = _
  unfold process_user_entry
  rw [if_neg (by simp)]
  dsimp only
  rw [if_pos h1, if_neg (by simp [h2]), if_neg h3]
  rfl

/-- Flushing a live accumulator emits one turn whose recorded context window
is the accumulator's. -/
theorem flush_turn_ctx (st : ParseState) (a : TurnAccumulator)
    (hc : st.current_turn = some a) :
    ∃ turn : ConversationTurn,
      flush_turn st = { st with
        turns := st.turns ++ [turn],
        current_turn := none, orphan_drained := true } ∧
      turn.context_window = a.context_window := by
  unfold flush_turn
  rw [hc]
  refine ⟨_, rfl, ?_⟩
  by_cases hd : st.orphan_drained <;> simp [hd]

/-- Running a block of assistant usage entries over a live turn: the
accumulator's context window folds `ctxStep` over the raw snapshots, and the
flushed-turn list is untouched. -/
theorem run_ctx (loc : Nat → Nat) (ts : Option Nat) :
    ∀ (ps : List (String × Usage)) (st : ParseState) (a : TurnAccumulator),
    st.current_turn = some a →
    ∃ a2, (processLines loc (ps.map
        (fun p => some (mkAssistantUsage ts p.1 p.2))) st).current_turn =
          some a2 ∧
      a2.context_window = (ps.map Prod.snd).foldl ctxStep a.context_window ∧
      (processLines loc (ps.map
        (fun p => some (mkAssistantUsage ts p.1 p.2))) st).turns = st.turns := by
  intro ps
  induction ps with
  | nil =>
    intro st a hc
    exact ⟨a, hc, rfl, rfl⟩
  | cons p ps ih =>
    intro st a hc
    have hpl : processLines loc ((p :: ps).map
        (fun q => some (mkAssistantUsage ts q.1 q.2))) st =
        processLines loc (ps.map (fun q => some (mkAssistantUsage ts q.1 q.2)))
          (process_entry loc (mkAssistantUsage ts p.1 p.2) st) := rfl
    rw [hpl]
    obtain ⟨-, -, -, -, -, ht, -, -, -, -, -, -, -, -, hlast⟩ :=
      asst_entry_effect loc ts p.1 p.2 st
    obtain ⟨⟨a1, hc1, -, -, -, -, hctx1⟩, -, -, -, -⟩ := hlast a hc
    obtain ⟨a2, hc2, hctx2, hturns2⟩ := ih _ a1 hc1
    refine ⟨a2, hc2, ?_, by rw [hturns2, ht]⟩
    rw [hctx2, hctx1]
    rfl

/-- The `ctxStep` fold picks the input-side count of the last snapshot with
a positive one, or keeps the seed. -/
theorem foldl_ctxStep_eq (us : List Usage) : ∀ d : Int,
    us.foldl ctxStep d =
      match (us.filter fun u => inputSide u > 0).getLast? with
      | some u => inputSide u
      | none => d := by
  induction us with
  | nil => intro d; rfl
  | cons u us ih =>
    intro d
    rw [List.foldl_cons, ih (ctxStep d u)]
    by_cases hp : inputSide u > 0
    · have hf : ((u :: us).filter fun v => inputSide v > 0) =
          u :: (us.filter fun v => inputSide v > 0) := by
        simp [List.filter_cons, hp]
      rw [hf, getLast?_cons_eq_some]
      cases h : (us.filter fun v => inputSide v > 0).getLast? with
      | none =>
        dsimp only [Option.getD]
        unfold ctxStep
        rw [if_pos hp]
      | some v => rfl
    · have hf : ((u :: us).filter fun v => inputSide v > 0) =
          us.filter fun v => inputSide v > 0 := by
        simp [List.filter_cons, hp]
      rw [hf]
      cases h : (us.filter fun v => inputSide v > 0).getLast? with
      | none =>
        dsimp only
        unfold ctxStep
        rw [if_neg hp]
      | some v => rfl

/-- C7: in a turn opened by a user prompt and containing several assistant
API calls, the emitted turn's `context_window` is the input-side token count
(`input + cache_read + cache_creation`, from the raw snapshot) of the last
call whose input-side count is positive; zero input-side calls do not
overwrite it, and with no positive call the turn reports `0`. -/
theorem C7_context_window_last_call_wins (loc : Nat → Nat)
    (t0 ts : Option Nat) (s enc session_id project_path : String)
    (ps : List (String × Usage)) (d : ClaudeSessionData)
    (h1 : pyStrip s ≠ "") (h2 : hasSystemTag s = false)
    (h3 : pyStrip s ≠ INTERRUPTED_TEXT)
    (hok : read_session loc session_id project_path
      (some ⟨enc, some (mkUserPrompt t0 s) ::
        ps.map (fun p => some (mkAssistantUsage ts p.1 p.2))⟩) =
      Except.ok d) :
    ∃ turn, d.conversation = [turn] ∧
      turn.context_window =
        match ((ps.map Prod.snd).filter fun u => inputSide u > 0).getLast? with
        | some u => inputSide u
        | none => 0 := by
  have hd : d = sessionDataOfState session_id project_path enc
      (processLines loc (some (mkUserPrompt t0 s) ::
        ps.map (fun p => some (mkAssistantUsage ts p.1 p.2))) initState) := by
    unfold read_session at hok
    exact (Except.ok.inj hok).symm
  subst hd
  obtain ⟨-, -, -, -, -, f6, -, -, -, -, -, f12, -, -, -, -, -, -⟩ :=
    recordTimeBranch_frame loc (mkUserPrompt t0 s) initState
  have hXc : ({ recordTimeBranch loc (mkUserPrompt t0 s) initState with
      total_user_messages := (recordTimeBranch loc (mkUserPrompt t0 s)
        initState).total_user_messages + 1 } : ParseState).current_turn =
      none := by
    show (recordTimeBranch loc (mkUserPrompt t0 s) initState).current_turn =
      none
    rw [f6]
    rfl
  have hstep2 : process_entry loc (mkUserPrompt t0 s) initState =
      { recordTimeBranch loc (mkUserPrompt t0 s) initState with
        total_user_messages := (recordTimeBranch loc (mkUserPrompt t0 s)
          initState).total_user_messages + 1,
        current_turn := some { timestamp := t0.map loc,
                               user_prompt := pyTake s MAX_PROMPT_LEN } } := by
    rw [user_prompt_step loc t0 s initState h1 h2 h3, flush_turn_none _ hXc]
  have hcur : (process_entry loc (mkUserPrompt t0 s) initState).current_turn =
      some { timestamp := t0.map loc,
             user_prompt := pyTake s MAX_PROMPT_LEN } := by
    rw [hstep2]
  have hturns1 : (process_entry loc (mkUserPrompt t0 s) initState).turns =
      [] := by
    rw [hstep2]
    show (recordTimeBranch loc (mkUserPrompt t0 s) initState).turns = []
    rw [f12]
    rfl
  obtain ⟨a2, hc2, hctx2, hturns2⟩ := run_ctx loc ts ps
    (process_entry loc (mkUserPrompt t0 s) initState) _ hcur
  obtain ⟨turn, hft, hctxT⟩ := flush_turn_ctx _ a2 hc2
  refine ⟨turn, ?_, ?_⟩
  · show (flush_turn (processLines loc (ps.map
        (fun p => some (mkAssistantUsage ts p.1 p.2)))
        (process_entry loc (mkUserPrompt t0 s) initState))).turns = [turn]
    rw [hft]
    show (processLines loc (ps.map
        (fun p => some (mkAssistantUsage ts p.1 p.2)))
        (process_entry loc (mkUserPrompt t0 s) initState)).turns ++ [turn] =
      [turn]
    rw [hturns2, hturns1]
    rfl
  · rw [hctxT, hctx2]
    show (ps.map Prod.snd).foldl ctxStep 0 = _
    exact foldl_ctxStep_eq (ps.map Prod.snd) 0

/-- C7 witness: four API calls with input-side counts 52005, 0, 52805, 0. -/
def c7ps : List (String × Usage) :=
  [("m1", ⟨52000, 5, 0, 5⟩), ("m2", ⟨0, 7, 0, 0⟩),
   ("m3", ⟨52800, 9, 0, 5⟩), ("m4", ⟨0, 3, 0, 0⟩)]

def c7File : SessionFile :=
  { encodedName := "p",
    lines := some (mkUserPrompt (some 0) "q") ::
      c7ps.map (fun p => some (mkAssistantUsage (some 1000000) p.1 p.2)) }

def c7WitnessData : ClaudeSessionData :=
  sessionDataOfState "s7" "" "p"
    (processLines (toLocalInstant 0) c7File.lines initState)

theorem C7_context_window_last_call_wins_witness :
    pyStrip "q" ≠ "" ∧ hasSystemTag "q" = false ∧
    pyStrip "q" ≠ INTERRUPTED_TEXT ∧
    read_session (toLocalInstant 0) "s7" "" (some c7File) =
      Except.ok c7WitnessData ∧
    ∃ turn, c7WitnessData.conversation = [turn] ∧
      turn.context_window = 52805 := by
  refine ⟨by decide, by decide, by decide, rfl, ?_⟩
  obtain ⟨turn, ht, hctx⟩ := C7_context_window_last_call_wins
    (toLocalInstant 0) (some 0) (some 1000000) "q" "p" "s7" "" c7ps
    c7WitnessData (by decide) (by decide) (by decide) rfl
  exact ⟨turn, ht, by rw [hctx]; rfl⟩

/-! ### C4 machinery -/

/-- Effect of a non-meta plain-prompt user entry on the fields relevant to
orphan draining: token totals and orphan counters are untouched, a fresh
accumulator is installed, and a live turn is flushed with the orphan
counters drained into it exactly when `orphan_drained` was still false. -/
theorem user_entry_effect (loc : Nat → Nat) (ts : Option Nat) (s : String)
    (st : ParseState) (h1 : pyStrip s ≠ "") (h2 : hasSystemTag s = false)
    (h3 : pyStrip s ≠ INTERRUPTED_TEXT) :
    (process_entry loc (mkUserPrompt ts s) st).input_tokens =
      st.input_tokens ∧
    (process_entry loc (mkUserPrompt ts s) st).output_tokens =
      st.output_tokens ∧
    (process_entry loc (mkUserPrompt ts s) st).cache_read_tokens =
      st.cache_read_tokens ∧
    (process_entry loc (mkUserPrompt ts s) st).cache_creation_tokens =
      st.cache_creation_tokens ∧
    (process_entry loc (mkUserPrompt ts s) st).orphan_input_tokens =
      st.orphan_input_tokens ∧
    (process_entry loc (mkUserPrompt ts s) st).orphan_output_tokens =
      st.orphan_output_tokens ∧
    (process_entry loc (mkUserPrompt ts s) st).orphan_cache_read_tokens =
      st.orphan_cache_read_tokens ∧
    (process_entry loc (mkUserPrompt ts s) st).orphan_cache_creation_tokens =
      st.orphan_cache_creation_tokens ∧
    (process_entry loc (mkUserPrompt ts s) st).current_turn =
      some { timestamp := ts.map loc,
             user_prompt := pyTake s MAX_PROMPT_LEN } ∧
    (st.current_turn = none →
      (process_entry loc (mkUserPrompt ts s) st).turns = st.turns ∧
      (process_entry loc (mkUserPrompt ts s) st).orphan_drained =
        st.orphan_drained) ∧
    (∀ a, st.current_turn = some a →
      ∃ turn, (process_entry loc (mkUserPrompt ts s) st).turns =
          st.turns ++ [turn] ∧
        (process_entry loc (mkUserPrompt ts s) st).orphan_drained = true ∧
        turn.tokens.input_tokens = a.input_tokens +
          (if st.orphan_drained then 0 else st.orphan_input_tokens) ∧
        turn.tokens.output_tokens = a.output_tokens +
          (if st.orphan_drained then 0 else st.orphan_output_tokens) ∧
        turn.tokens.cache_read_tokens = a.cache_read_tokens +
          (if st.orphan_drained then 0 else st.orphan_cache_read_tokens) ∧
        turn.tokens.cache_creation_tokens = a.cache_creation_tokens +
          (if st.orphan_drained then 0 else st.orphan_cache_creation_tokens)) := by
  rw [user_prompt_step loc ts s st h1 h2 h3]
  obtain ⟨f1, f2, f3, f4, -, f6, -, -, -, -, -, f12, f13, f14, f15, f16, f17,
    -⟩ := recordTimeBranch_frame loc (mkUserPrompt ts s) st
  cases hc : st.current_turn with
  | none =>
    have hXc : ({ recordTimeBranch loc (mkUserPrompt ts s) st with
        total_user_messages := (recordTimeBranch loc (mkUserPrompt ts s)
          st).total_user_messages + 1 } : ParseState).current_turn = none := by
      show (recordTimeBranch loc (mkUserPrompt ts s) st).current_turn = none
      rw [f6, hc]
    rw [flush_turn_none _ hXc]
    refine ⟨f1, f2, f3, f4, f14, f15, f16, f17, rfl, fun _ => ⟨f12, f13⟩,
      fun a ha => ?_⟩
    cases ha
  | some a0 =>
    have hXc : ({ recordTimeBranch loc (mkUserPrompt ts s) st with
        total_user_messages := (recordTimeBranch loc (mkUserPrompt ts s)
          st).total_user_messages + 1 } : ParseState).current_turn =
        some a0 := by
      show (recordTimeBranch loc (mkUserPrompt ts s) st).current_turn = some a0
      rw [f6, hc]
    obtain ⟨turn, hft, t1, t2, t3, t4⟩ := flush_turn_some _ a0 hXc
    rw [hft]
    dsimp only at t1 t2 t3 t4 ⊢
    rw [f13] at t1 t2 t3 t4
    rw [f14] at t1
    rw [f15] at t2
    rw [f16] at t3
    rw [f17] at t4
    refine ⟨f1, f2, f3, f4, f14, f15, f16, f17, ?_, ?_, ?_⟩
    · rfl
    · intro hn
      cases hn
    · intro a ha
      obtain rfl : a0 = a := Option.some.inj ha
      exact ⟨turn, by rw [f12], rfl, t1, t2, t3, t4⟩

/-- C4: with two assistant entries (tokens `A`, `B`) before any user prompt
and then two user/assistant turn pairs (tokens `T1`, `T2`), the parse emits
exactly two turns, the first turn's counters include `A + B` on top of `T1`,
the second turn carries `T2` alone, and the session totals are
`A + B + T1 + T2` — orphan tokens are drained exactly once, into the first
flushed turn. -/
theorem C4_orphan_drain_exactly_once (loc : Nat → Nat)
    (tA tB tu1 tc tu2 td : Option Nat) (A B T1 T2 : Usage)
    (enc session_id project_path : String) (d : ClaudeSessionData)
    (hok : read_session loc session_id project_path
      (some ⟨enc,
        [some (mkAssistantUsage tA "" A), some (mkAssistantUsage tB "" B),
         some (mkUserPrompt tu1 "q1"), some (mkAssistantUsage tc "" T1),
         some (mkUserPrompt tu2 "q2"), some (mkAssistantUsage td "" T2)]⟩) =
      Except.ok d) :
    ∃ turn1 turn2, d.conversation = [turn1, turn2] ∧
      turn1.tokens.input_tokens =
        A.input_tokens + B.input_tokens + T1.input_tokens ∧
      turn1.tokens.output_tokens =
        A.output_tokens + B.output_tokens + T1.output_tokens ∧
      turn1.tokens.cache_read_tokens = A.cache_read_input_tokens +
        B.cache_read_input_tokens + T1.cache_read_input_tokens ∧
      turn1.tokens.cache_creation_tokens = A.cache_creation_input_tokens +
        B.cache_creation_input_tokens + T1.cache_creation_input_tokens ∧
      turn2.tokens.input_tokens = T2.input_tokens ∧
      turn2.tokens.output_tokens = T2.output_tokens ∧
      turn2.tokens.cache_read_tokens = T2.cache_read_input_tokens ∧
      turn2.tokens.cache_creation_tokens = T2.cache_creation_input_tokens ∧
      d.input_tokens = A.input_tokens + B.input_tokens + T1.input_tokens +
        T2.input_tokens ∧
      d.output_tokens = A.output_tokens + B.output_tokens +
        T1.output_tokens + T2.output_tokens ∧
      d.cache_read_tokens = A.cache_read_input_tokens +
        B.cache_read_input_tokens + T1.cache_read_input_tokens +
        T2.cache_read_input_tokens ∧
      d.cache_creation_tokens = A.cache_creation_input_tokens +
        B.cache_creation_input_tokens + T1.cache_creation_input_tokens +
        T2.cache_creation_input_tokens := by
  have hd : d = sessionDataOfState session_id project_path enc
      (processLines loc
        [some (mkAssistantUsage tA "" A), some (mkAssistantUsage tB "" B),
         some (mkUserPrompt tu1 "q1"), some (mkAssistantUsage tc "" T1),
         some (mkUserPrompt tu2 "q2"), some (mkAssistantUsage td "" T2)]
        initState) := by
    unfold read_session at hok
    exact (Except.ok.inj hok).symm
  subst hd
  set st1 := process_entry loc (mkAssistantUsage tA "" A) initState with hst1
  set st2 := process_entry loc (mkAssistantUsage tB "" B) st1 with hst2
  set st3 := process_entry loc (mkUserPrompt tu1 "q1") st2 with hst3
  set st4 := process_entry loc (mkAssistantUsage tc "" T1) st3 with hst4
  set st5 := process_entry loc (mkUserPrompt tu2 "q2") st4 with hst5
  set st6 := process_entry loc (mkAssistantUsage td "" T2) st5 with hst6
  have hF : processLines loc
      [some (mkAssistantUsage tA "" A), some (mkAssistantUsage tB "" B),
       some (mkUserPrompt tu1 "q1"), some (mkAssistantUsage tc "" T1),
       some (mkUserPrompt tu2 "q2"), some (mkAssistantUsage td "" T2)]
      initState = st6 := rfl
  rw [hF]
  have z1 : initState.input_tokens = 0 := rfl
  have z2 : initState.output_tokens = 0 := rfl
  have z3 : initState.cache_read_tokens = 0 := rfl
  have z4 : initState.cache_creation_tokens = 0 := rfl
  have zo1 : initState.orphan_input_tokens = 0 := rfl
  have zo2 : initState.orphan_output_tokens = 0 := rfl
  have zo3 : initState.orphan_cache_read_tokens = 0 := rfl
  have zo4 : initState.orphan_cache_creation_tokens = 0 := rfl
  have zc : initState.current_turn = none := rfl
  obtain ⟨i1, o1, r1, c1, -, t1f, d1f, -, -, -, -, -, -, n1, -⟩ :=
    asst_entry_effect loc tA "" A initState
  obtain ⟨cur1, p1i, p1o, p1r, p1c⟩ := n1 zc
  rw [usageDelta_no_id] at i1 o1 r1 c1 p1i p1o p1r p1c
  rw [← hst1] at i1 o1 r1 c1 t1f d1f cur1 p1i p1o p1r p1c
  obtain ⟨i2, o2, r2, c2, -, t2f, d2f, -, -, -, -, -, -, n2, -⟩ :=
    asst_entry_effect loc tB "" B st1
  obtain ⟨cur2, p2i, p2o, p2r, p2c⟩ := n2 cur1
  rw [usageDelta_no_id] at i2 o2 r2 c2 p2i p2o p2r p2c
  rw [← hst2] at i2 o2 r2 c2 t2f d2f cur2 p2i p2o p2r p2c
  obtain ⟨i3, o3, r3, c3v, q3i, q3o, q3r, q3c, cur3, n3, -⟩ :=
    user_entry_effect loc tu1 "q1" st2 (by decide) (by decide) (by decide)
  obtain ⟨t3f, d3f⟩ := n3 cur2
  rw [← hst3] at i3 o3 r3 c3v q3i q3o q3r q3c cur3 t3f d3f
  obtain ⟨i4, o4, r4, c4v, -, t4f, d4f, -, -, -, -, -, -, -, s4⟩ :=
    asst_entry_effect loc tc "" T1 st3
  obtain ⟨ex4, q4i, q4o, q4r, q4c⟩ := s4 _ cur3
  obtain ⟨a4, hc4, e4i, e4o, e4r, e4c, -⟩ := ex4
  rw [usageDelta_no_id] at i4 o4 r4 c4v e4i e4o e4r e4c
  dsimp only at e4i e4o e4r e4c
  rw [← hst4] at i4 o4 r4 c4v t4f d4f hc4 q4i q4o q4r q4c
  obtain ⟨i5, o5, r5, c5v, -, -, -, -, cur5, -, s5⟩ :=
    user_entry_effect loc tu2 "q2" st4 (by decide) (by decide) (by decide)
  obtain ⟨turn1, u5turns, u5d, uq1, uq2, uq3, uq4⟩ := s5 _ hc4
  rw [← hst5] at i5 o5 r5 c5v cur5 u5turns u5d
  obtain ⟨i6, o6, r6, c6v, -, t6f, d6f, -, -, -, -, -, -, -, s6⟩ :=
    asst_entry_effect loc td "" T2 st5
  obtain ⟨ex6, -, -, -, -⟩ := s6 _ cur5
  obtain ⟨a6, hc6, e6i, e6o, e6r, e6c, -⟩ := ex6
  rw [usageDelta_no_id] at i6 o6 r6 c6v e6i e6o e6r e6c
  dsimp only at e6i e6o e6r e6c
  rw [← hst6] at i6 o6 r6 c6v t6f d6f hc6
  obtain ⟨turn2, hft6, w1, w2, w3, w4⟩ := flush_turn_some st6 a6 hc6
  have hdr4 : st4.orphan_drained = false := by
    rw [d4f, d3f, d2f, d1f]
    rfl
  have hdr6 : st6.orphan_drained = true := by
    rw [d6f, u5d]
  rw [hdr4] at uq1 uq2 uq3 uq4
  simp at uq1 uq2 uq3 uq4
  rw [hdr6] at w1 w2 w3 w4
  simp at w1 w2 w3 w4
  refine ⟨turn1, turn2, ?_, ?_, ?_, ?_, ?_, ?_, ?_, ?_, ?_, ?_, ?_, ?_, ?_⟩
  · show (flush_turn st6).turns = [turn1, turn2]
    rw [hft6]
    show st6.turns ++ [turn2] = [turn1, turn2]
    rw [t6f, u5turns, t4f, t3f, t2f, t1f]
    rfl
  · omega
  · omega
  · omega
  · omega
  · omega
  · omega
  · omega
  · omega
  · show (flush_turn st6).input_tokens = _
    rw [hft6]
    show st6.input_tokens = _
    omega
  · show (flush_turn st6).output_tokens = _
    rw [hft6]
    show st6.output_tokens = _
    omega
  · show (flush_turn st6).cache_read_tokens = _
    rw [hft6]
    show st6.cache_read_tokens = _
    omega
  · show (flush_turn st6).cache_creation_tokens = _
    rw [hft6]
    show st6.cache_creation_tokens = _
    omega

/-- C4 witness file: orphan tokens `A = (10,1,2,3)`, `B = (20,4,5,6)`, then
two turns with `T1 = (7,8,9,10)` and `T2 = (11,12,13,14)`. -/
def c4File : SessionFile :=
  { encodedName := "p",
    lines := [some (mkAssistantUsage (some 0) "" ⟨10, 1, 2, 3⟩),
      some (mkAssistantUsage (some 1) "" ⟨20, 4, 5, 6⟩),
      some (mkUserPrompt (some 2) "q1"),
      some (mkAssistantUsage (some 3) "" ⟨7, 8, 9, 10⟩),
      some (mkUserPrompt (some 4) "q2"),
      some (mkAssistantUsage (some 5) "" ⟨11, 12, 13, 14⟩)] }

def c4WitnessData : ClaudeSessionData :=
  sessionDataOfState "s4" "" "p"
    (processLines (toLocalInstant 0) c4File.lines initState)

theorem C4_orphan_drain_exactly_once_witness :
    read_session (toLocalInstant 0) "s4" "" (some c4File) =
      Except.ok c4WitnessData ∧
    ∃ turn1 turn2, c4WitnessData.conversation = [turn1, turn2] ∧
      turn1.tokens.input_tokens = 37 ∧ turn2.tokens.input_tokens = 11 ∧
      c4WitnessData.input_tokens = 48 := by
  refine ⟨rfl, ?_⟩
  obtain ⟨turn1, turn2, hconv, h1i, -, -, -, h2i, -, -, -, hdi, -, -, -⟩ :=
    C4_orphan_drain_exactly_once (toLocalInstant 0) (some 0) (some 1) (some 2)
      (some 3) (some 4) (some 5) ⟨10, 1, 2, 3⟩ ⟨20, 4, 5, 6⟩ ⟨7, 8, 9, 10⟩
      ⟨11, 12, 13, 14⟩ "p" "s4" "" c4WitnessData rfl
  refine ⟨turn1, turn2, hconv, ?_, ?_, ?_⟩
  · rw [h1i]
    (try decide)
  · rw [h2i]
  · rw [hdi]
    (try decide)

/-! ### C9 -/

/-- C9: `read_session` fails (with the not-found message) exactly when no
source file resolves; a resolved file always yields a session record, and
undecodable lines (`none` entries) are skipped without affecting the parse
of the remaining lines. -/
theorem C9_not_found_iff_and_malformed_skipped (loc : Nat → Nat)
    (session_id project_path : String) :
    (∀ file?, (∃ msg, read_session loc session_id project_path file? =
      Except.error msg) ↔ file? = none) ∧
    read_session loc session_id project_path none =
      Except.error ("No JSONL session found: " ++ session_id) ∧
    (∀ f : SessionFile, ∃ d,
      read_session loc session_id project_path (some f) = Except.ok d) ∧
    (∀ (lines : List JsonLine) (st : ParseState),
      processLines loc lines st =
        processLines loc ((lines.filterMap id).map some) st) := by
  refine ⟨?_, rfl, fun f => ⟨_, rfl⟩, ?_⟩
  · intro file?
    cases file? with
    | none =>
      exact ⟨fun _ => rfl,
        fun _ => ⟨"No JSONL session found: " ++ session_id, rfl⟩⟩
    | some f =>
      constructor
      · rintro ⟨msg, h⟩
        exact absurd h (by simp [read_session])
      · intro h
        cases h
  · intro lines
    induction lines with
    | nil =>
      intro st
      rfl
    | cons l ls ih =>
      intro st
      cases l with
      | none =>
        have hf : ((none :: ls).filterMap id) = ls.filterMap id := by simp
        rw [hf]
        show processLines loc ls st = _
        exact ih st
      | some e =>
        have hf : ((some e :: ls).filterMap id) = e :: ls.filterMap id := by
          simp
        rw [hf]
        show processLines loc ls (process_entry loc e st) =
          processLines loc ((ls.filterMap id).map some)
            (process_entry loc e st)
        exact ih _

/-! ### C6 -/

/-- C6 (amended): any two *nonzero* whole-hour offsets produce identical
parses (millisecond truncation applies to both alike); the zero offset,
which keeps microsecond precision, is excluded. -/
theorem C6_duration_offset_amended (tz1 tz2 : Int) (h1 : tz1 ≠ 0)
    (h2 : tz2 ≠ 0) (session_id project_path : String)
    (file? : Option SessionFile) :
    read_session_at tz1 session_id project_path file? =
      read_session_at tz2 session_id project_path file? := by
  have ht : toLocalInstant tz1 = toLocalInstant tz2 := by
    funext t
    unfold toLocalInstant
    rw [if_neg h1, if_neg h2]
  unfold read_session_at
  rw [ht]

/-- C6 counterexample file: the last timestamp has a 500µs fraction, so the
millisecond truncation applied under a nonzero offset changes the rounded
duration. -/
def c6File : SessionFile :=
  { encodedName := "p",
    lines := [some (mkUserPrompt (some 0) "q"),
      some (mkAssistantUsage (some 9000500) "m" ⟨1, 1, 0, 0⟩)] }

/-- C6 (counterexample to the claim as stated): offsets `0` and `1` compute
different `duration_minutes` for the same file. -/
theorem C6_counterexample :
    (read_session_at 0 "s6" "" (some c6File)).map
      (fun d => d.duration_minutes) = Except.ok (1 / 5 : ℚ) ∧
    (read_session_at 1 "s6" "" (some c6File)).map
      (fun d => d.duration_minutes) = Except.ok (1 / 10 : ℚ) ∧
    (1 / 5 : ℚ) ≠ 1 / 10 := by
  have e0 : (read_session_at 0 "s6" "" (some c6File)).map
      (fun d => d.duration_minutes) =
      Except.ok (duration_minutes_of (some 0) (some 9000500)) := by rfl
  have e1 : (read_session_at 1 "s6" "" (some c6File)).map
      (fun d => d.duration_minutes) =
      Except.ok (duration_minutes_of (some 0) (some 9000000)) := by rfl
  have v0 : duration_minutes_of (some 0) (some 9000500) = 1 / 5 := by
    show round1 ((((9000500 : ℕ) : ℚ) - ((0 : ℕ) : ℚ)) / MICROS_PER_MINUTE) =
      1 / 5
    unfold round1 MICROS_PER_MINUTE
    norm_num
    rw [show (⌈(12001 : ℚ) / 12000⌉ : ℤ) = 2 by rw [Int.ceil_eq_iff]; norm_num]
    norm_num
  have v1 : duration_minutes_of (some 0) (some 9000000) = 1 / 10 := by
    show round1 ((((9000000 : ℕ) : ℚ) - ((0 : ℕ) : ℚ)) / MICROS_PER_MINUTE) =
      1 / 10
    unfold round1 MICROS_PER_MINUTE
    norm_num
  refine ⟨?_, ?_, by norm_num⟩
  · rw [e0, v0]
  · rw [e1, v1]

theorem C6_duration_offset_amended_witness :
    (1 : Int) ≠ 0 ∧ (2 : Int) ≠ 0 ∧
    read_session_at 1 "s6" "" (some c6File) =
      read_session_at 2 "s6" "" (some c6File) :=
  ⟨by decide, by decide,
    C6_duration_offset_amended 1 2 (by decide) (by decide) "s6" ""
      (some c6File)⟩

/-! ### C8 machinery -/

theorem lookupD_dictInsert {α : Type} (m : List (String × α)) (k : String)
    (v : α) (a : String) (d : α) :
    lookupD (dictInsert m k v) a d = if a = k then v else lookupD m a d := by
  unfold lookupD
  rw [lookup_dictInsert]
  by_cases h : a = k
  · rw [if_pos h, if_pos h]
  · rw [if_neg h, if_neg h]

/-- The inner histogram update of `_aggregate`:
`tools_histogram[tool] = tools_histogram.get(tool, 0) + count`. -/
def histAdd (h : List (String × Nat)) (p : String × Nat) :
    List (String × Nat) :=
  dictInsert h p.1 (lookupD h p.1 0 + p.2)

theorem aggStep_fields (acc : AggAcc) (s : CachedSessionStats) :
    (aggStep acc s).total_duration =
      acc.total_duration + s.duration_minutes ∧
    (aggStep acc s).total_input = acc.total_input + s.input_tokens ∧
    (aggStep acc s).total_output = acc.total_output + s.output_tokens ∧
    (aggStep acc s).total_cache_creation =
      acc.total_cache_creation + s.cache_creation_tokens ∧
    (aggStep acc s).total_cache_read =
      acc.total_cache_read + s.cache_read_tokens ∧
    (aggStep acc s).total_subagent_input =
      acc.total_subagent_input + s.subagent_input_tokens ∧
    (aggStep acc s).total_subagent_output =
      acc.total_subagent_output + s.subagent_output_tokens ∧
    (aggStep acc s).total_subagent_cache_creation =
      acc.total_subagent_cache_creation + s.subagent_cache_creation_tokens ∧
    (aggStep acc s).total_tool_calls =
      acc.total_tool_calls + s.total_tool_calls ∧
    (aggStep acc s).total_user_messages =
      acc.total_user_messages + s.total_user_messages ∧
    (aggStep acc s).total_assistant_messages =
      acc.total_assistant_messages + s.total_assistant_messages ∧
    (aggStep acc s).tools_histogram =
      s.tools_summary.foldl histAdd acc.tools_histogram := by
  unfold aggStep histAdd
  dsimp only
  repeat' split
  all_goals
    exact ⟨rfl, rfl, rfl, rfl, rfl, rfl, rfl, rfl, rfl, rfl, rfl, rfl⟩

/-- Folding the histogram update over one session's `tools_summary` adds,
for every tool name, the total mass its pairs carry. -/
theorem lookupD_histAdd_fold (t : String) :
    ∀ (ts h : List (String × Nat)),
    lookupD (ts.foldl histAdd h) t 0 =
      lookupD h t 0 +
        ((ts.filter (fun p => p.1 = t)).map Prod.snd).sum := by
  intro ts
  induction ts with
  | nil =>
    intro h
    simp
  | cons p ps ih =>
    intro h
    rw [List.foldl_cons, ih (histAdd h p)]
    by_cases hpt : p.1 = t
    · subst hpt
      have hl : lookupD (histAdd h p) p.1 0 = lookupD h p.1 0 + p.2 := by
        unfold histAdd
        rw [lookupD_dictInsert, if_pos rfl]
      rw [hl]
      simp [List.filter_cons]
      omega
    · have hl : lookupD (histAdd h p) t 0 = lookupD h t 0 := by
        unfold histAdd
        rw [lookupD_dictInsert, if_neg (fun hh => hpt hh.symm)]
      rw [hl]
      simp [List.filter_cons, hpt]

/-- With distinct keys, the pair-mass of a tool equals its stored count. -/
theorem filter_sum_eq_lookupD_nodup (t : String) :
    ∀ ts : List (String × Nat), (ts.map Prod.fst).Nodup →
    ((ts.filter (fun p => p.1 = t)).map Prod.snd).sum = lookupD ts t 0 := by
  intro ts
  induction ts with
  | nil =>
    intro
    rfl
  | cons p ps ih =>
    intro hnd
    obtain ⟨pk, pv⟩ := p
    rw [List.map_cons, List.nodup_cons] at hnd
    obtain ⟨hnotin, hnd2⟩ := hnd
    rw [lookupD_cons]
    by_cases hp : pk = t
    · subst hp
      have hf : ps.filter (fun q => q.1 = pk) = [] := by
        rw [List.filter_eq_nil_iff]
        intro q hq hdec
        have hq1 : q.1 = pk := by simpa using hdec
        have hqm : q.1 ∈ ps.map Prod.fst := List.mem_map_of_mem Prod.fst hq
        rw [hq1] at hqm
        exact hnotin hqm
      simp [List.filter_cons, hf]
    · rw [if_neg hp]
      have hf : ((pk, pv) :: ps).filter (fun q => q.1 = t) =
          ps.filter (fun q => q.1 = t) := by
        simp [List.filter_cons, hp]
      rw [hf, ih hnd2]

/-- The `_aggregate` loop computes, over any starting accumulator, the sums
of every per-session numeric counter and of the histogram masses. -/
theorem foldl_aggStep_fields (sessions : List CachedSessionStats) :
    ∀ acc : AggAcc,
    (sessions.foldl aggStep acc).total_duration =
      acc.total_duration +
        (sessions.map (fun s => s.duration_minutes)).sum ∧
    (sessions.foldl aggStep acc).total_input =
      acc.total_input + (sessions.map (fun s => s.input_tokens)).sum ∧
    (sessions.foldl aggStep acc).total_output =
      acc.total_output + (sessions.map (fun s => s.output_tokens)).sum ∧
    (sessions.foldl aggStep acc).total_cache_creation =
      acc.total_cache_creation +
        (sessions.map (fun s => s.cache_creation_tokens)).sum ∧
    (sessions.foldl aggStep acc).total_cache_read =
      acc.total_cache_read +
        (sessions.map (fun s => s.cache_read_tokens)).sum ∧
    (sessions.foldl aggStep acc).total_subagent_input =
      acc.total_subagent_input +
        (sessions.map (fun s => s.subagent_input_tokens)).sum ∧
    (sessions.foldl aggStep acc).total_subagent_output =
      acc.total_subagent_output +
        (sessions.map (fun s => s.subagent_output_tokens)).sum ∧
    (sessions.foldl aggStep acc).total_subagent_cache_creation =
      acc.total_subagent_cache_creation +
        (sessions.map (fun s => s.subagent_cache_creation_tokens)).sum ∧
    (sessions.foldl aggStep acc).total_tool_calls =
      acc.total_tool_calls +
        (sessions.map (fun s => s.total_tool_calls)).sum ∧
    (sessions.foldl aggStep acc).total_user_messages =
      acc.total_user_messages +
        (sessions.map (fun s => s.total_user_messages)).sum ∧
    (sessions.foldl aggStep acc).total_assistant_messages =
      acc.total_assistant_messages +
        (sessions.map (fun s => s.total_assistant_messages)).sum ∧
    (∀ t, lookupD (sessions.foldl aggStep acc).tools_histogram t 0 =
      lookupD acc.tools_histogram t 0 +
        (sessions.map (fun s =>
          ((s.tools_summary.filter (fun p => p.1 = t)).map
            Prod.snd).sum)).sum) := by
  induction sessions with
  | nil =>
    intro acc
    refine ⟨?_, ?_, ?_, ?_, ?_, ?_, ?_, ?_, ?_, ?_, ?_, fun t => ?_⟩ <;> simp
  | cons s ss ih =>
    intro acc
    obtain ⟨g1, g2, g3, g4, g5, g6, g7, g8, g9, g10, g11, g12⟩ :=
      ih (aggStep acc s)
    obtain ⟨f1, f2, f3, f4, f5, f6, f7, f8, f9, f10, f11, f12⟩ :=
      aggStep_fields acc s
    rw [List.foldl_cons]
    refine ⟨?_, ?_, ?_, ?_, ?_, ?_, ?_, ?_, ?_, ?_, ?_, fun t => ?_⟩
    · rw [g1, f1]
      rw [List.map_cons, List.sum_cons, add_assoc]
    · rw [g2, f2, List.map_cons, List.sum_cons]
      omega
    · rw [g3, f3, List.map_cons, List.sum_cons]
      omega
    · rw [g4, f4, List.map_cons, List.sum_cons]
      omega
    · rw [g5, f5, List.map_cons, List.sum_cons]
      omega
    · rw [g6, f6, List.map_cons, List.sum_cons]
      omega
    · rw [g7, f7, List.map_cons, List.sum_cons]
      omega
    · rw [g8, f8, List.map_cons, List.sum_cons]
      omega
    · rw [g9, f9, List.map_cons, List.sum_cons]
      omega
    · rw [g10, f10, List.map_cons, List.sum_cons]
      omega
    · rw [g11, f11, List.map_cons, List.sum_cons]
      omega
    · rw [g12 t, f12, lookupD_histAdd_fold t, List.map_cons, List.sum_cons]
      omega

/-- A sum of one-decimal rationals is a one-decimal rational. -/
theorem sum_tenths (f : CachedSessionStats → ℚ) :
    ∀ l : List CachedSessionStats,
    (∀ s ∈ l, ∃ k : ℤ, f s = (k : ℚ) / 10) →
    ∃ K : ℤ, (l.map f).sum = (K : ℚ) / 10 := by
  intro l
  induction l with
  | nil =>
    intro
    exact ⟨0, by simp⟩
  | cons s ss ih =>
    intro h
    obtain ⟨k, hk⟩ := h s (List.mem_cons_self s ss)
    obtain ⟨K, hK⟩ := ih (fun x hx => h x (List.mem_cons_of_mem s hx))
    refine ⟨k + K, ?_⟩
    rw [List.map_cons, List.sum_cons, hk, hK]
    push_cast
    ring

/-- `round(x, 1)` is the identity on exact tenths. -/
theorem round1_tenths (K : ℤ) : round1 ((K : ℚ) / 10) = (K : ℚ) / 10 := by
  unfold round1
  have h : ((K : ℚ) / 10 * 10 - 1 / 2) = (K : ℚ) - 1 / 2 := by
    field_simp
  rw [h]
  have hc : (⌈(K : ℚ) - 1 / 2⌉ : ℤ) = K := by
    rw [Int.ceil_eq_iff]
    constructor
    · linarith
    · linarith
  rw [hc]

/-- C8: the daily aggregate sums every numeric counter over the included
sessions; the tool histogram maps each tool to the sum of its per-session
counts; and the date filter keeps exactly the sessions whose extracted date
lies in `[start_date, date_end]` with the end defaulting to the start.  The
histogram clause assumes each session's `tools_summary` has distinct keys
and the duration clause assumes one-decimal per-session durations, both of
which hold for every record the parser itself produces. -/
theorem C8_aggregation_and_date_filter (sessions : List CachedSessionStats)
    (date_range : String) (cached_count parsed_count : Nat)
    (files : List (String × Option Int)) (start_date : Int)
    (date_end : Option Int)
    (hnd : ∀ s ∈ sessions, (s.tools_summary.map Prod.fst).Nodup)
    (hten : ∀ s ∈ sessions, ∃ k : ℤ, s.duration_minutes = (k : ℚ) / 10) :
    (∀ t, lookupD (aggregate sessions date_range cached_count
        parsed_count).tools_histogram t 0 =
      (sessions.map (fun s => lookupD s.tools_summary t 0)).sum) ∧
    (aggregate sessions date_range cached_count
        parsed_count).total_duration_minutes =
      (sessions.map (fun s => s.duration_minutes)).sum ∧
    (aggregate sessions date_range cached_count
        parsed_count).total_input_tokens =
      (sessions.map (fun s => s.input_tokens)).sum ∧
    (aggregate sessions date_range cached_count
        parsed_count).total_output_tokens =
      (sessions.map (fun s => s.output_tokens)).sum ∧
    (aggregate sessions date_range cached_count
        parsed_count).total_cache_creation_tokens =
      (sessions.map (fun s => s.cache_creation_tokens)).sum ∧
    (aggregate sessions date_range cached_count
        parsed_count).total_cache_read_tokens =
      (sessions.map (fun s => s.cache_read_tokens)).sum ∧
    (aggregate sessions date_range cached_count
        parsed_count).total_subagent_input_tokens =
      (sessions.map (fun s => s.subagent_input_tokens)).sum ∧
    (aggregate sessions date_range cached_count
        parsed_count).total_subagent_output_tokens =
      (sessions.map (fun s => s.subagent_output_tokens)).sum ∧
    (aggregate sessions date_range cached_count
        parsed_count).total_subagent_cache_creation_tokens =
      (sessions.map (fun s => s.subagent_cache_creation_tokens)).sum ∧
    (aggregate sessions date_range cached_count
        parsed_count).total_tool_calls =
      (sessions.map (fun s => s.total_tool_calls)).sum ∧
    (aggregate sessions date_range cached_count
        parsed_count).total_user_messages =
      (sessions.map (fun s => s.total_user_messages)).sum ∧
    (aggregate sessions date_range cached_count
        parsed_count).total_assistant_messages =
      (sessions.map (fun s => s.total_assistant_messages)).sum ∧
    (aggregate sessions date_range cached_count
        parsed_count).total_sessions = sessions.length ∧
    (∀ sid, sid ∈ matchingSessions files start_date date_end ↔
      ∃ day : Int, (sid, some day) ∈ files ∧ start_date ≤ day ∧
        day ≤ date_end.getD start_date) := by
  obtain ⟨g1, g2, g3, g4, g5, g6, g7, g8, g9, g10, g11, g12⟩ :=
    foldl_aggStep_fields sessions ({} : AggAcc)
  refine ⟨fun t => ?_, ?_, ?_, ?_, ?_, ?_, ?_, ?_, ?_, ?_, ?_, ?_, rfl,
    fun sid => ?_⟩
  · show lookupD (sessions.foldl aggStep {}).tools_histogram t 0 = _
    rw [g12 t]
    have hz : lookupD ({} : AggAcc).tools_histogram t 0 = 0 := rfl
    have hmap : sessions.map (fun s =>
        ((s.tools_summary.filter (fun p => p.1 = t)).map Prod.snd).sum) =
        sessions.map (fun s => lookupD s.tools_summary t 0) :=
      List.map_congr_left
        (fun s hs => filter_sum_eq_lookupD_nodup t s.tools_summary (hnd s hs))
    rw [hz, hmap]
    omega
  · show round1 (sessions.foldl aggStep {}).total_duration = _
    rw [g1]
    obtain ⟨K, hK⟩ := sum_tenths (fun s => s.duration_minutes) sessions hten
    have hz : ({} : AggAcc).total_duration = 0 := rfl
    rw [hK, hz, zero_add, round1_tenths]
  · show (sessions.foldl aggStep {}).total_input = _
    rw [g2]
    have hz : ({} : AggAcc).total_input = 0 := rfl
    rw [hz, zero_add]
  · show (sessions.foldl aggStep {}).total_output = _
    rw [g3]
    have hz : ({} : AggAcc).total_output = 0 := rfl
    rw [hz, zero_add]
  · show (sessions.foldl aggStep {}).total_cache_creation = _
    rw [g4]
    have hz : ({} : AggAcc).total_cache_creation = 0 := rfl
    rw [hz, zero_add]
  · show (sessions.foldl aggStep {}).total_cache_read = _
    rw [g5]
    have hz : ({} : AggAcc).total_cache_read = 0 := rfl
    rw [hz, zero_add]
  · show (sessions.foldl aggStep {}).total_subagent_input = _
    rw [g6]
    have hz : ({} : AggAcc).total_subagent_input = 0 := rfl
    rw [hz, zero_add]
  · show (sessions.foldl aggStep {}).total_subagent_output = _
    rw [g7]
    have hz : ({} : AggAcc).total_subagent_output = 0 := rfl
    rw [hz, zero_add]
  · show (sessions.foldl aggStep {}).total_subagent_cache_creation = _
    rw [g8]
    have hz : ({} : AggAcc).total_subagent_cache_creation = 0 := rfl
    rw [hz, zero_add]
  · show (sessions.foldl aggStep {}).total_tool_calls = _
    rw [g9]
    have hz : ({} : AggAcc).total_tool_calls = 0 := rfl
    rw [hz]
    omega
  · show (sessions.foldl aggStep {}).total_user_messages = _
    rw [g10]
    have hz : ({} : AggAcc).total_user_messages = 0 := rfl
    rw [hz]
    omega
  · show (sessions.foldl aggStep {}).total_assistant_messages = _
    rw [g11]
    have hz : ({} : AggAcc).total_assistant_messages = 0 := rfl
    rw [hz]
    omega
  · unfold matchingSessions
    rw [List.mem_filterMap]
    constructor
    · rintro ⟨⟨s, od⟩, hmem, hf⟩
      cases od with
      | none => simp at hf
      | some day =>
        dsimp only at hf
        by_cases hc : start_date ≤ day ∧ day ≤ date_end.getD start_date
        · rw [if_pos hc] at hf
          obtain rfl : s = sid := Option.some.inj hf
          exact ⟨day, hmem, hc.1, hc.2⟩
        · rw [if_neg hc] at hf
          cases hf
    · rintro ⟨day, hmem, hd1, hd2⟩
      refine ⟨(sid, some day), hmem, ?_⟩
      show (if start_date ≤ day ∧ day ≤ date_end.getD start_date
        then some sid else none) = some sid
      rw [if_pos ⟨hd1, hd2⟩]

/-- C8 witness sessions: tool histograms `{Read:1, Bash:1}` and
`{Read:2, Write:1}`, durations `0.3` and `0.5` minutes. -/
def c8s1 : CachedSessionStats :=
  { session_id := "a", project_name := "p1", project_path := "/p1",
    git_branch := none, model := some "m", start_time := some 0,
    end_time := some 18000000, duration_minutes := 3 / 10,
    total_user_messages := 1, total_assistant_messages := 2,
    total_tool_calls := 2, input_tokens := 5, output_tokens := 6,
    cache_creation_tokens := 7, cache_read_tokens := 8,
    subagent_input_tokens := 0, subagent_output_tokens := 0,
    subagent_cache_creation_tokens := 0,
    tools_summary := [("Read", 1), ("Bash", 1)], jsonl_mtime := 1,
    jsonl_path := "x" }

def c8s2 : CachedSessionStats :=
  { session_id := "b", project_name := "p2", project_path := "/p2",
    git_branch := none, model := some "m", start_time := some 0,
    end_time := some 30000000, duration_minutes := 5 / 10,
    total_user_messages := 2, total_assistant_messages := 3,
    total_tool_calls := 3, input_tokens := 10, output_tokens := 20,
    cache_creation_tokens := 30, cache_read_tokens := 40,
    subagent_input_tokens := 1, subagent_output_tokens := 2,
    subagent_cache_creation_tokens := 3,
    tools_summary := [("Read", 2), ("Write", 1)], jsonl_mtime := 1,
    jsonl_path := "y" }

theorem C8_aggregation_and_date_filter_witness :
    (∀ s ∈ [c8s1, c8s2], (s.tools_summary.map Prod.fst).Nodup) ∧
    (∀ s ∈ [c8s1, c8s2], ∃ k : ℤ, s.duration_minutes = (k : ℚ) / 10) ∧
    lookupD (aggregate [c8s1, c8s2] "d" 1 1).tools_histogram "Read" 0 = 3 ∧
    lookupD (aggregate [c8s1, c8s2] "d" 1 1).tools_histogram "Bash" 0 = 1 ∧
    lookupD (aggregate [c8s1, c8s2] "d" 1 1).tools_histogram "Write" 0 = 1 ∧
    (aggregate [c8s1, c8s2] "d" 1 1).total_input_tokens = 15 ∧
    (aggregate [c8s1, c8s2] "d" 1 1).total_duration_minutes = 4 / 5 ∧
    "a" ∈ matchingSessions [("a", some 5), ("b", some 7), ("c", none)] 5
      (some 6) ∧
    "b" ∉ matchingSessions [("a", some 5), ("b", some 7), ("c", none)] 5
      (some 6) := by
  have hnd : ∀ s ∈ [c8s1, c8s2], (s.tools_summary.map Prod.fst).Nodup := by
    intro s hs
    simp only [List.mem_cons, List.not_mem_nil, or_false] at hs
    rcases hs with rfl | rfl <;> decide
  have hten : ∀ s ∈ [c8s1, c8s2],
      ∃ k : ℤ, s.duration_minutes = (k : ℚ) / 10 := by
    intro s hs
    simp only [List.mem_cons, List.not_mem_nil, or_false] at hs
    rcases hs with rfl | rfl
    · exact ⟨3, by norm_num [c8s1]⟩
    · exact ⟨5, by norm_num [c8s2]⟩
  obtain ⟨hhist, hdur, hin, -, -, -, -, -, -, -, -, -, -, hiff⟩ :=
    C8_aggregation_and_date_filter [c8s1, c8s2] "d" 1 1
      [("a", some 5), ("b", some 7), ("c", none)] 5 (some 6) hnd hten
  refine ⟨hnd, hten, ?_, ?_, ?_, ?_, ?_, ?_, ?_⟩
  · rw [hhist "Read"]
    decide
  · rw [hhist "Bash"]
    decide
  · rw [hhist "Write"]
    decide
  · rw [hin]
    decide
  · rw [hdur]
    norm_num [c8s1, c8s2]
  · exact (hiff "a").mpr ⟨5, by decide, by decide, by decide⟩
  · decide

/-! ### C5 -/

/-- C5: the cached record is returned, with no cache write, exactly when a
cached record was found whose stored source mtime equals the current one;
otherwise the freshly parsed data is projected, returned and written.
Re-extracting with an unchanged mtime then returns the identical record
without another write, whatever a re-parse would have produced. -/
theorem C5_cache_hit_iff_mtime_equal (cached? : Option CachedSessionStats)
    (mt : ℚ) (data : ClaudeSessionData) (path : String) :
    (∀ c, cached? = some c → c.jsonl_mtime = mt →
      extract_session_stats cached? mt data path =
        { result := c, cacheWritten := false, cacheAfter := some c }) ∧
    (∀ c, cached? = some c → c.jsonl_mtime ≠ mt →
      extract_session_stats cached? mt data path =
        { result := to_cached_stats data mt path, cacheWritten := true,
          cacheAfter := some (to_cached_stats data mt path) }) ∧
    (cached? = none →
      extract_session_stats cached? mt data path =
        { result := to_cached_stats data mt path, cacheWritten := true,
          cacheAfter := some (to_cached_stats data mt path) }) ∧
    (∀ data2, extract_session_stats
        (extract_session_stats cached? mt data path).cacheAfter mt data2
        path =
      { result := (extract_session_stats cached? mt data path).result,
        cacheWritten := false,
        cacheAfter :=
          (extract_session_stats cached? mt data path).cacheAfter }) := by
  refine ⟨?_, ?_, ?_, ?_⟩
  · rintro c rfl heq
    unfold extract_session_stats
    dsimp only
    rw [if_pos (by simp [is_cache_valid, heq])]
  · rintro c rfl hne
    unfold extract_session_stats
    dsimp only
    rw [if_neg (by simp [is_cache_valid, hne])]
  · rintro rfl
    rfl
  · intro data2
    cases cached? with
    | none =>
      show extract_session_stats (some (to_cached_stats data mt path)) mt
        data2 path = _
      unfold extract_session_stats
      dsimp only
      rw [if_pos (by simp [is_cache_valid, to_cached_stats])]
    | some c =>
      by_cases h : c.jsonl_mtime = mt
      · have h1 : extract_session_stats (some c) mt data path =
            { result := c, cacheWritten := false, cacheAfter := some c } := by
          unfold extract_session_stats
          dsimp only
          rw [if_pos (by simp [is_cache_valid, h])]
        rw [h1]
        show extract_session_stats (some c) mt data2 path =
          { result := c, cacheWritten := false, cacheAfter := some c }
        unfold extract_session_stats
        dsimp only
        rw [if_pos (by simp [is_cache_valid, h])]
      · have h1 : extract_session_stats (some c) mt data path =
            { result := to_cached_stats data mt path, cacheWritten := true,
              cacheAfter := some (to_cached_stats data mt path) } := by
          unfold extract_session_stats
          dsimp only
          rw [if_neg (by simp [is_cache_valid, h])]
        rw [h1]
        show extract_session_stats (some (to_cached_stats data mt path)) mt
          data2 path =
          { result := to_cached_stats data mt path, cacheWritten := false,
            cacheAfter := some (to_cached_stats data mt path) }
        unfold extract_session_stats
        dsimp only
        rw [if_pos (by simp [is_cache_valid, to_cached_stats])]

/-- C5 witness data: an empty parsed session. -/
def c5Data : ClaudeSessionData :=
  { session_id := "s5", project_path := "", project_name := "p",
    git_branch := none, model := none, start_time := none, end_time := none,
    duration_minutes := 0, conversation := [], total_user_messages := 0,
    total_assistant_messages := 0, total_tool_calls := 0, total_tokens := 0,
    input_tokens := 0, output_tokens := 0, cache_read_tokens := 0,
    cache_creation_tokens := 0, tools_summary := [], files_read := [],
    files_written := [], commands_run := [] }

def c5Cached : CachedSessionStats := to_cached_stats c5Data (3 / 2) "f.jsonl"

theorem C5_cache_hit_iff_mtime_equal_witness :
    some c5Cached = some c5Cached ∧ c5Cached.jsonl_mtime = 3 / 2 ∧
    extract_session_stats (some c5Cached) (3 / 2) c5Data "f.jsonl" =
      { result := c5Cached, cacheWritten := false,
        cacheAfter := some c5Cached } :=
  ⟨rfl, rfl,
    (C5_cache_hit_iff_mtime_equal (some c5Cached) (3 / 2) c5Data
      "f.jsonl").1 c5Cached rfl rfl⟩

end AIUsageLog
